import Mathlib

/-!
Verification development for the cmux preview-proxy core.

The repository contains two parallel implementations of the preview proxy:
one top-level (`preview_proxy.rs`, suffix `P` below for "preview") and one
in the `proxy/` module (`proxy/rewrite.rs`, `proxy/auth.rs`,
`proxy/handlers.rs`, `proxy/types.rs`, suffix `M` below for "module").
Rust strings are embedded as `List Char`, byte strings as `List Nat`,
machine integers as `Nat`/`Int`, and fallible operations as
`Option`/`Except`.  External crate functions used by the source
(`url`, `base64`, `std` IP parsing, hyper header conversion) are modelled
by explicit Lean functions, written from the documented behaviour of
those crates on the inputs this code feeds them.
-/

/-- Characters of a Rust string, our working representation. -/
abbrev Str := List Char

/-- ASCII lowercasing of one character, models `char::to_ascii_lowercase`
(and `str::to_lowercase` on ASCII input, which is all the hostname
code paths feed it). -/
def asciiLower (c : Char) : Char :=
  if 'A' ≤ c ∧ c ≤ 'Z' then Char.ofNat (c.toNat + 32) else c

/-- Models Rust `str::to_lowercase` on ASCII text. -/
def lowerStr (s : Str) : Str := s.map asciiLower

/-- Models Rust `str::starts_with`. -/
def startsWith (pre s : Str) : Bool := List.isPrefixOf pre s

/-- Models Rust `str::ends_with`. -/
def endsWith (suf s : Str) : Bool := List.isPrefixOf suf.reverse s.reverse

/-- Split a list at every occurrence of `sep`, keeping empty chunks; models
Rust `str::split(sep)`. -/
def splitSep (sep : Char) : Str → List Str
  | [] => [[]]
  | c :: rest =>
    if c = sep then [] :: splitSep sep rest
    else
      match splitSep sep rest with
      | [] => [[c]]
      | p :: ps => (c :: p) :: ps

/-- Models Rust `[&str]::join(sep)` / intercalation with a one-character
separator. -/
def joinSep (sep : Char) : List Str → Str
  | [] => []
  | [p] => p
  | p :: ps => p ++ sep :: joinSep sep ps

/-- Fuel-driven helper for `natRepr`; the fuel always suffices because a
number shrinks under division by 10. -/
def natReprAux : Nat → Nat → Str
  | 0, _ => []
  | fuel + 1, n =>
    if n < 10 then [Char.ofNat (48 + n)]
    else natReprAux fuel (n / 10) ++ [Char.ofNat (48 + n % 10)]

/-- Decimal digit characters of a natural number, most significant first;
models Rust's `Display` for unsigned integers. -/
def natRepr (n : Nat) : Str := natReprAux (n + 1) n

/-- Models Rust's `Display` for `i32` (sign, then decimal digits). -/
def intRepr (i : Int) : Str :=
  if i < 0 then '-' :: natRepr i.natAbs else natRepr i.natAbs

/-- Is `c` an ASCII decimal digit; models `char::is_ascii_digit`. -/
def isAsciiDigit (c : Char) : Bool := '0' ≤ c ∧ c ≤ '9'

/-- Rust `char::is_whitespace` restricted to the ASCII range, which is the
only range reachable after hyper's `HeaderValue::to_str`. -/
def isWsChar (c : Char) : Bool :=
  c = ' ' ∨ c = '\t' ∨ c = '\n' ∨ c = '\r' ∨ c = Char.ofNat 12

/-- Models Rust `str::trim` on ASCII text. -/
def trimStr (s : Str) : Str :=
  ((s.dropWhile isWsChar).reverse.dropWhile isWsChar).reverse

/-- Models Rust `str::trim_matches(|c| c == '[' || c == ']')`. -/
def trimBrackets (s : Str) : Str :=
  let isBr := fun c => c = '[' ∨ c = ']'
  ((s.dropWhile isBr).reverse.dropWhile isBr).reverse

/-- Models Rust `str::split_whitespace` (non-empty chunks between runs of
whitespace). -/
def splitWhitespaceAux : Str → List Str
  | [] => [[]]
  | c :: rest =>
    if isWsChar c then [] :: splitWhitespaceAux rest
    else
      match splitWhitespaceAux rest with
      | [] => [[c]]
      | p :: ps => (c :: p) :: ps

/-- Models Rust `str::split_whitespace`. -/
def splitWhitespace (s : Str) : List Str :=
  (splitWhitespaceAux s).filter (fun p => !p.isEmpty)

/-- Models Rust `str::eq_ignore_ascii_case`. -/
def eqIgnoreAsciiCase (a b : Str) : Bool := lowerStr a = lowerStr b

/-- Does the list contain `needle` as a contiguous sublist; models Rust
`str::contains` for a substring pattern. -/
def containsSub (needle : Str) : Str → Bool
  | [] => needle.isEmpty
  | c :: rest => startsWith needle (c :: rest) || containsSub needle rest

/-- Association list lookup by key (first match); models lookup in
`DashMap` / `HashMap`, whose keys are unique. -/
def lookupA {α β : Type} [DecidableEq α] : List (α × β) → α → Option β
  | [], _ => none
  | (k, v) :: rest, key => if key = k then some v else lookupA rest key

/-- Key removal; models `DashMap::remove` / `HashMap::remove` as a map. -/
def eraseA {α β : Type} [DecidableEq α] (key : α) (m : List (α × β)) :
    List (α × β) :=
  m.filter (fun kv => kv.1 ≠ key)

/-- Key insertion replacing any previous value; models `DashMap::insert` /
`HashMap::insert` as a map. -/
def insertA {α β : Type} [DecidableEq α] (key : α) (v : β)
    (m : List (α × β)) : List (α × β) :=
  (key, v) :: eraseA key m

/-! ## Data model

`ProxyRoute` and the two context records, from
`proxy/types.rs` and `preview_proxy.rs`. -/

/-- Route information extracted from a URL
(`ProxyRoute` in `proxy/types.rs`, `RouteConfig` in `preview_proxy.rs`). -/
structure ProxyRoute where
  morph_id : Str
  scope : Str
  domain_suffix : Str
deriving DecidableEq, Repr

/-- Session context (`ProxyContext` in `preview_proxy.rs`; the `proxy/`
module's variant has the same fields with `web_contents_id : u32`). -/
structure ProxyContext where
  username : Str
  password : Str
  web_contents_id : Int
  persist_key : Option Str
  route : Option ProxyRoute
deriving DecidableEq, Repr

/-- The fixed list `CMUX_DOMAINS` from `proxy/types.rs`. -/
def CMUX_DOMAINS : List Str :=
  ["cmux.app".data, "cmux.sh".data, "cmux.dev".data,
   "cmux.local".data, "cmux.localhost".data, "autobuild.app".data]

/-! ## URL model

The source uses the `url` crate.  Only the components the proxy code
reads and writes are modelled: scheme, host and port.  The crate's
setters succeed on every input this code gives them (all schemes used
are "special" schemes, hosts are present), so they are modelled as
total record updates. -/

/-- The components of a parsed `url::Url` that the proxy reads/writes. -/
structure Url where
  scheme : Str
  host : Option Str
  port : Option Nat
deriving DecidableEq, Repr

/-- Default port of a special scheme, as the `url` crate knows them. -/
def schemeDefaultPort (scheme : Str) : Option Nat :=
  if scheme = "http".data ∨ scheme = "ws".data then some 80
  else if scheme = "https".data ∨ scheme = "wss".data then some 443
  else none

/-! ## Loopback classifiers -/

/-- Models `std` `Ipv4Addr` textual parsing: exactly four dot-separated
decimal octets, each 1-3 digits, value at most 255, no leading zeros,
no signs. -/
def parseIpv4Octet (s : Str) : Option Nat :=
  if s.isEmpty ∨ 3 < s.length then none
  else if ¬ s.all (fun c => isAsciiDigit c) then none
  else if 1 < s.length ∧ s.head? = some '0' then none
  else
    let v := s.foldl (fun acc c => acc * 10 + (c.toNat - 48)) 0
    if v ≤ 255 then some v else none

/-- Models `"…".parse::<Ipv4Addr>()`. -/
def parseIpv4 (s : Str) : Option (Nat × Nat × Nat × Nat) :=
  match (splitSep '.' s).map parseIpv4Octet with
  | [some a, some b, some c, some d] => some (a, b, c, d)
  | _ => none

/-- Models `Ipv4Addr::is_loopback` (membership in 127.0.0.0/8). -/
def ipv4IsLoopback (ip : Nat × Nat × Nat × Nat) : Bool := ip.1 = 127

/-- `is_loopback_hostname` from `proxy/rewrite.rs` (lines 69-75): literal
match on the lowercased hostname, else raw prefix checks. -/
def is_loopback_hostnameM (hostname : Str) : Bool :=
  (lowerStr hostname = "localhost".data ∨
   lowerStr hostname = "127.0.0.1".data ∨
   lowerStr hostname = "::1".data ∨
   lowerStr hostname = "[::1]".data)
  || startsWith "127.".data hostname
  || startsWith "[::ffff:127.".data hostname

/-- `is_loopback_hostname` from `preview_proxy.rs` (lines 842-853): trim
whitespace and brackets, lowercase, literal match, `.localhost` suffix,
or IPv4 parse with `is_loopback`. -/
def is_loopback_hostnameP (host : Str) : Bool :=
  let trimmed := trimBrackets (trimStr host)
  let lower := lowerStr trimmed
  (lower = "localhost".data ∨ lower = "127.0.0.1".data ∨
   lower = "0.0.0.0".data ∨ lower = "::1".data ∨
   lower = "::ffff:127.0.0.1".data)
  || endsWith ".localhost".data lower
  || (match parseIpv4 lower with
      | some ip => ipv4IsLoopback ip
      | none => false)

/-! ## Requested port and host construction -/

/-- `determine_requested_port` from `proxy/rewrite.rs` (total variant). -/
def determine_requested_portM (url : Url) : Nat :=
  match url.port with
  | some p => p
  | none => if url.scheme = "https".data ∨ url.scheme = "wss".data then 443 else 80

/-- `build_cmux_host` from `proxy/rewrite.rs` / `preview_proxy.rs`. -/
def build_cmux_host (route : ProxyRoute) (port : Nat) : Str :=
  "cmux-".data ++ route.morph_id ++ "-".data ++ route.scope ++ "-".data ++
    natRepr port ++ ".".data ++ route.domain_suffix

/-! ## Responses -/

/-- The parts of a hyper `Response` that the claims speak about.  Header
names are kept in their normalized (lowercase) hyper form. -/
structure Resp where
  status : Nat
  headers : List (Str × Str)
  body : Str
deriving DecidableEq, Repr

instance instDecEqExcept {ε α : Type} [DecidableEq ε] [DecidableEq α] :
    DecidableEq (Except ε α) := fun x y =>
  match x, y with
  | .ok a, .ok b =>
    if h : a = b then isTrue (by rw [h]) else isFalse (by simp [h])
  | .error a, .error b =>
    if h : a = b then isTrue (by rw [h]) else isFalse (by simp [h])
  | .ok _, .error _ => isFalse (by simp)
  | .error _, .ok _ => isFalse (by simp)

/-- `response_with` from `preview_proxy.rs`. -/
def response_with (status : Nat) (msg : Str) : Resp :=
  ⟨status, [("content-type".data, "text/plain; charset=utf-8".data)], msg⟩

/-- `respond_proxy_auth_required` from `preview_proxy.rs` and
`proxy_auth_required_response` from `proxy/auth.rs`: both produce a 407
with the same `Proxy-Authenticate` header and body. -/
def respond_proxy_auth_required : Resp :=
  ⟨407, [("proxy-authenticate".data, "Basic realm=\"Cmux Preview Proxy\"".data)],
   "Proxy Authentication Required".data⟩

/-! ## Target rewriting -/

/-- `rewrite_target` from `proxy/rewrite.rs` (lines 97-123): returns the
rewritten URL and the `secure` flag. -/
def rewrite_targetM (url : Url) (context : ProxyContext) : Url × Bool :=
  let secure := url.scheme = "https".data ∨ url.scheme = "wss".data
  match context.route with
  | none => (url, secure)
  | some route =>
    match url.host with
    | none => (url, secure)
    | some host =>
      if is_loopback_hostnameM host then
        let requested_port := determine_requested_portM url
        let new_host := build_cmux_host route requested_port
        let new_scheme :=
          if url.scheme = "ws".data ∨ url.scheme = "wss".data
          then "wss".data else "https".data
        ({ scheme := new_scheme, host := some new_host, port := none }, true)
      else (url, secure)

/-- `ProxyTarget` from `preview_proxy.rs`. -/
structure ProxyTarget where
  url : Url
  connect_port : Nat
deriving DecidableEq, Repr

/-- `determine_requested_port` from `preview_proxy.rs` (lines 821-833),
which rejects schemes other than http/https/ws/wss. -/
def determine_requested_portP (url : Url) : Except Resp Nat :=
  match url.port with
  | some p => .ok p
  | none =>
    if url.scheme = "https".data ∨ url.scheme = "wss".data then .ok 443
    else if url.scheme = "http".data ∨ url.scheme = "ws".data then .ok 80
    else .error (response_with 400 ("unsupported scheme ".data ++ url.scheme))

/-- `rewrite_target` from `preview_proxy.rs` (lines 780-819). -/
def rewrite_targetP (target : Url) (ctx : ProxyContext) :
    Except Resp ProxyTarget := do
  let step : Except Resp (Url × Bool) :=
    match ctx.route with
    | none => .ok (target, target.scheme = "https".data ∨ target.scheme = "wss".data)
    | some route =>
      match target.host with
      | none => .ok (target, target.scheme = "https".data ∨ target.scheme = "wss".data)
      | some host =>
        if is_loopback_hostnameP host then do
          let requested_port ← determine_requested_portP target
          .ok ({ scheme := "https".data,
                 host := some (build_cmux_host route requested_port),
                 port := none }, true)
        else .ok (target, target.scheme = "https".data ∨ target.scheme = "wss".data)
  let (rewritten, secure) ← step
  let connect_port := match rewritten.port with
    | some p => p
    | none => if secure then 443 else 80
  .ok ⟨rewritten, connect_port⟩

-- quick sanity examples (mirroring the repository's unit tests)
example :
    (rewrite_targetP ⟨"http".data, some "127.0.0.1".data, some 39378⟩
      ⟨"wc-1-test".data, "secret".data, 1, none,
       some ⟨"abc123".data, "base".data, "cmux.dev".data⟩⟩) =
    .ok ⟨⟨"https".data, some "cmux-abc123-base-39378.cmux.dev".data, none⟩, 443⟩ := by
  decide

example :
    (rewrite_targetP ⟨"https".data, some "example.com".data, some 8443⟩
      ⟨"u".data, "p".data, 2, none, none⟩) =
    .ok ⟨⟨"https".data, some "example.com".data, some 8443⟩, 8443⟩ := by
  decide

example : is_loopback_hostnameP "test.localhost".data = true := by decide
example : is_loopback_hostnameP "example.com".data = false := by decide
example : is_loopback_hostnameM "127.18.0.5".data = true := by decide
example : is_loopback_hostnameP "127.18.0.5".data = true := by decide

/-! ## Route derivation (`derive_route` in `proxy/rewrite.rs`) -/

/-- Split at the first occurrence of `pat`, returning the parts before and
after it; models Rust `str::splitn(2, pat)` with two resulting parts,
and the `find`-then-slice idiom. -/
def splitAtSub (pat : Str) : Str → Option (Str × Str)
  | [] => if pat.isEmpty then some ([], []) else none
  | c :: rest =>
    if startsWith pat (c :: rest) then some ([], (c :: rest).drop pat.length)
    else (splitAtSub pat rest).map (fun ab => (c :: ab.1, ab.2))

/-- Index of the first occurrence of `pat`; models Rust `str::find` on
ASCII text (where byte and character indices coincide). -/
def findSubIdx (pat : Str) : Str → Option Nat
  | [] => if pat.isEmpty then some 0 else none
  | c :: rest =>
    if startsWith pat (c :: rest) then some 0
    else (findSubIdx pat rest).map (· + 1)

/-- Host extraction of `url::Url::parse` followed by `host_str()`, modelled
for hierarchical URLs of the shape `scheme://host[:port][/…]` without
userinfo or bracketed IPv6 hosts — the only shapes `derive_route` is fed.
The crate lowercases registered-name hosts, validates the port digits and
rejects an empty host. -/
def urlHostStr (url_str : Str) : Option Str :=
  match splitAtSub "://".data url_str with
  | none => none
  | some (scheme, rest) =>
    if scheme.isEmpty then none
    else
      let authority := rest.takeWhile (fun c => ¬(c = '/' ∨ c = '?' ∨ c = '#'))
      let host := authority.takeWhile (fun c => c ≠ ':')
      let portPart := authority.dropWhile (fun c => c ≠ ':')
      if host.isEmpty then none
      else if ¬ host.all (fun c =>
          ('a' ≤ c ∧ c ≤ 'z') ∨ ('A' ≤ c ∧ c ≤ 'Z') ∨ isAsciiDigit c ∨
          c = '-' ∨ c = '.' ∨ c = '_') then none
      else
        match portPart with
        | [] => some (lowerStr host)
        | _ :: digits =>
          if digits.all (fun c => isAsciiDigit c) then some (lowerStr host)
          else none

/-- Pattern 1 of `derive_route`:
`port-<digits>-morphvm-<id>.http.cloud.morph.so`. -/
def deriveRouteMorph (hostname : Str) : Option ProxyRoute :=
  if startsWith "port-".data hostname then
    let caps := hostname.drop 5
    if endsWith ".http.cloud.morph.so".data caps then
      let morph_match := caps.take (caps.length - ".http.cloud.morph.so".length)
      match findSubIdx "-morphvm-".data morph_match with
      | some morph_idx =>
        let morph_id := morph_match.drop (morph_idx + 9)
        if morph_id.isEmpty then none
        else some ⟨morph_id, "base".data, "cmux.app".data⟩
      | none => none
    else none
  else none

/-- Pattern 2 of `derive_route`, the body of the loop over `CMUX_DOMAINS`
for one candidate `domain`; `none` corresponds to `continue`.  (The
source's `segments.last()?` cannot return early here because it is
guarded by `segments.len() >= 3`.) -/
def deriveRouteCmuxStep (hostname domain : Str) : Option ProxyRoute :=
  let suffix := ".".data ++ domain
  if endsWith suffix hostname then
    let subdomain := hostname.take (hostname.length - suffix.length)
    if startsWith "cmux-".data subdomain then
      let remainder := subdomain.drop 5
      let segments := (splitSep '-' remainder).filter (fun s => ¬ s.isEmpty)
      if segments.length < 3 then none
      else
        let port_segment := segments.getLastD []
        if ¬ port_segment.all (fun c => isAsciiDigit c) then none
        else
          let scope_segment := segments.getD (segments.length - 2) []
          let morph_id := joinSep '-' (segments.take (segments.length - 2))
          if morph_id.isEmpty then none
          else some ⟨morph_id, scope_segment, domain⟩
    else none
  else none

/-- The loop over `CMUX_DOMAINS` in `derive_route`. -/
def deriveRouteCmuxLoop (hostname : Str) : List Str → Option ProxyRoute
  | [] => none
  | d :: ds =>
    match deriveRouteCmuxStep hostname d with
    | some r => some r
    | none => deriveRouteCmuxLoop hostname ds

/-- `derive_route` from `proxy/rewrite.rs` (lines 5-66). -/
def derive_route (url_str : Str) : Option ProxyRoute :=
  match urlHostStr url_str with
  | none => none
  | some h =>
    let hostname := lowerStr h
    match deriveRouteMorph hostname with
    | some r => some r
    | none => deriveRouteCmuxLoop hostname CMUX_DOMAINS

-- sanity: the repository's own unit tests for derive_route
example :
    derive_route "http://port-8080-morphvm-test123.http.cloud.morph.so/path".data
      = some ⟨"test123".data, "base".data, "cmux.app".data⟩ := by decide
example :
    derive_route "http://cmux-morphid-base-8080.cmux.sh/path".data
      = some ⟨"morphid".data, "base".data, "cmux.sh".data⟩ := by decide
example :
    derive_route "http://cmux-my-long-morph-id-base-3000.cmux.app/".data
      = some ⟨"my-long-morph-id".data, "base".data, "cmux.app".data⟩ := by decide
example : derive_route "http://example.com/path".data = none := by decide

/-! ## Registries -/

/-- `SharedState` from `preview_proxy.rs` (the two index maps; the
`logging_enabled` flag does not participate in any claim). -/
structure SharedState where
  contexts_by_username : List (Str × ProxyContext)
  contexts_by_web_contents : List (Int × Str)
deriving DecidableEq, Repr

/-- The empty registry. -/
def SharedState.empty : SharedState := ⟨[], []⟩

/-- `SharedState::register_context` (preview_proxy.rs lines 131-149):
inserts into both indices, without evicting a previous registration of
the same `web_contents_id`. -/
def registerContext (s : SharedState) (ctx : ProxyContext) : SharedState :=
  { contexts_by_web_contents :=
      insertA ctx.web_contents_id ctx.username s.contexts_by_web_contents,
    contexts_by_username :=
      insertA ctx.username ctx s.contexts_by_username }

/-- `SharedState::release_by_web_contents` (preview_proxy.rs lines
151-159): removes the id entry, then the username entry the id mapped
to; each `?` in the source corresponds to an early `none`. -/
def releaseByWebContents (s : SharedState) (id : Int) :
    SharedState × Option ProxyContext :=
  match lookupA s.contexts_by_web_contents id with
  | none => (s, none)
  | some username =>
    let s1 := { s with
      contexts_by_web_contents := eraseA id s.contexts_by_web_contents }
    match lookupA s1.contexts_by_username username with
    | none => (s1, none)
    | some ctx =>
      ({ s1 with
          contexts_by_username := eraseA username s1.contexts_by_username },
       some ctx)

/-- `SharedState::context_for_username`. -/
def contextForUsername (s : SharedState) (username : Str) :
    Option ProxyContext :=
  lookupA s.contexts_by_username username

/-- `ProxyContext::new` from `preview_proxy.rs`: the username is
`wc-{web_contents_id}-{random hex}`; the random hex strings are passed
in explicitly here (the source draws them from `OsRng`). -/
def ProxyContext.new (web_contents_id : Int) (persist_key : Option Str)
    (route : Option ProxyRoute) (userRand pw : Str) : ProxyContext :=
  { username := "wc-".data ++ intRepr web_contents_id ++ "-".data ++ userRand,
    password := pw,
    web_contents_id := web_contents_id,
    persist_key := persist_key,
    route := route }

/-- `preview_proxy_configure` from `preview_proxy.rs` (lines 889-915),
restricted to its registry effect: reject id 0, release any previous
context for the id, then register a freshly generated context. -/
def previewProxyConfigure (s : SharedState) (web_contents_id : Int)
    (persist_key : Option Str) (route : Option ProxyRoute)
    (userRand pw : Str) : SharedState × Option (Str × Str) :=
  if web_contents_id = 0 then (s, none)
  else
    let s1 := (releaseByWebContents s web_contents_id).1
    let ctx := ProxyContext.new web_contents_id persist_key route userRand pw
    (registerContext s1 ctx, some (ctx.username, ctx.password))

/-- `ProxyState` from `proxy/types.rs`: both indices store the full
context.  (`web_contents_id` is `u32` in this variant; it is embedded in
the same `Int`-keyed shape.) -/
structure ProxyState where
  contexts_by_username : List (Str × ProxyContext)
  contexts_by_web_contents_id : List (Int × ProxyContext)
deriving DecidableEq, Repr

/-- The empty `ProxyState`. -/
def ProxyState.empty : ProxyState := ⟨[], []⟩

/-- `ProxyState::add_context` (proxy/types.rs lines 56-61). -/
def add_context (s : ProxyState) (context : ProxyContext) : ProxyState :=
  { contexts_by_username :=
      insertA context.username context s.contexts_by_username,
    contexts_by_web_contents_id :=
      insertA context.web_contents_id context s.contexts_by_web_contents_id }

/-- `ProxyState::remove_context` (proxy/types.rs lines 63-72). -/
def remove_context (s : ProxyState) (web_contents_id : Int) :
    ProxyState × Option ProxyContext :=
  match lookupA s.contexts_by_web_contents_id web_contents_id with
  | none => (s, none)
  | some context =>
    ({ contexts_by_web_contents_id :=
         eraseA web_contents_id s.contexts_by_web_contents_id,
       contexts_by_username := eraseA context.username s.contexts_by_username },
     some context)

/-- `ProxyState::get_context_by_username`. -/
def get_context_by_username (s : ProxyState) (username : Str) :
    Option ProxyContext :=
  lookupA s.contexts_by_username username

/-! ## Authentication

`authenticate` from `preview_proxy.rs` (lines 176-195) and
`authenticate_request` from `proxy/auth.rs` (lines 10-36), together with
models of the crate functions they call: hyper's `HeaderValue::to_str`,
the `base64` crate's `BASE64_STANDARD.decode`, and
`String::from_utf8`. -/

/-- Models hyper `HeaderValue::to_str`: succeeds only if every byte is
visible ASCII, space or horizontal tab. -/
def headerToStr (raw : List Nat) : Option Str :=
  if raw.all (fun b => b = 9 ∨ (32 ≤ b ∧ b < 127)) then
    some (raw.map Char.ofNat)
  else none

/-- Value of one standard-alphabet base64 character. -/
def b64Val (c : Char) : Option Nat :=
  if 'A' ≤ c ∧ c ≤ 'Z' then some (c.toNat - 65)
  else if 'a' ≤ c ∧ c ≤ 'z' then some (c.toNat - 71)
  else if '0' ≤ c ∧ c ≤ '9' then some (c.toNat + 4)
  else if c = '+' then some 62
  else if c = '/' then some 63
  else none

/-- Models the `base64` crate's `BASE64_STANDARD.decode`: standard
alphabet, canonical `=` padding required, non-zero trailing bits
rejected; the input length must be a multiple of four. -/
def b64Decode : Str → Option (List Nat)
  | [] => some []
  | c1 :: c2 :: c3 :: c4 :: rest => do
    let v1 ← b64Val c1
    let v2 ← b64Val c2
    if c3 = '=' then
      if c4 = '=' ∧ rest = [] ∧ v2 % 16 = 0 then
        some [v1 * 4 + v2 / 16]
      else none
    else do
      let v3 ← b64Val c3
      if c4 = '=' then
        if rest = [] ∧ v3 % 4 = 0 then
          some [v1 * 4 + v2 / 16, (v2 % 16) * 16 + v3 / 4]
        else none
      else do
        let v4 ← b64Val c4
        let tail ← b64Decode rest
        some ([v1 * 4 + v2 / 16, (v2 % 16) * 16 + v3 / 4,
               (v3 % 4) * 64 + v4] ++ tail)
  | _ => none

/-- One step of UTF-8 decoding: the next scalar value and the remaining
bytes, rejecting overlong forms, surrogates and values above U+10FFFF;
models the validation inside `String::from_utf8`. -/
def utf8Step : List Nat → Option (Nat × List Nat)
  | [] => none
  | b :: rest =>
    if b < 0x80 then some (b, rest)
    else if b < 0xC2 then none
    else if b < 0xE0 then
      match rest with
      | b2 :: r =>
        if 0x80 ≤ b2 ∧ b2 < 0xC0 then
          some ((b - 0xC0) * 64 + (b2 - 0x80), r)
        else none
      | _ => none
    else if b < 0xF0 then
      match rest with
      | b2 :: b3 :: r =>
        let lo2 := if b = 0xE0 then 0xA0 else 0x80
        let hi2 := if b = 0xED then 0xA0 else 0xC0
        if lo2 ≤ b2 ∧ b2 < hi2 ∧ 0x80 ≤ b3 ∧ b3 < 0xC0 then
          some ((b - 0xE0) * 4096 + (b2 - 0x80) * 64 + (b3 - 0x80), r)
        else none
      | _ => none
    else if b < 0xF5 then
      match rest with
      | b2 :: b3 :: b4 :: r =>
        let lo2 := if b = 0xF0 then 0x90 else 0x80
        let hi2 := if b = 0xF4 then 0x90 else 0xC0
        if lo2 ≤ b2 ∧ b2 < hi2 ∧ 0x80 ≤ b3 ∧ b3 < 0xC0 ∧
            0x80 ≤ b4 ∧ b4 < 0xC0 then
          some ((b - 0xF0) * 262144 + (b2 - 0x80) * 4096 +
                (b3 - 0x80) * 64 + (b4 - 0x80), r)
        else none
      | _ => none
    else none

/-- Fuel-driven UTF-8 decoding loop (the fuel is the byte count, which
bounds the number of decoded characters). -/
def utf8DecodeAux : Nat → List Nat → Option Str
  | _, [] => some []
  | 0, _ :: _ => none
  | fuel + 1, bs =>
    match utf8Step bs with
    | none => none
    | some (cp, rest) => (utf8DecodeAux fuel rest).map (Char.ofNat cp :: ·)

/-- Models `String::from_utf8` on a byte vector. -/
def utf8Decode (bs : List Nat) : Option Str := utf8DecodeAux bs.length bs

/-- `SharedState::authenticate` from `preview_proxy.rs` (lines 176-195):
exact `Basic ` prefix, base64+UTF-8 decode, split at the first `:`,
username lookup, byte-for-byte password comparison. -/
def previewAuthenticate (hdr : Option (List Nat)) (s : SharedState) :
    Option ProxyContext :=
  match hdr with
  | none => none
  | some raw =>
    match headerToStr raw with
    | none => none
    | some value =>
      if startsWith "Basic ".data value then
        match b64Decode (value.drop 6) with
        | none => none
        | some decoded =>
          match utf8Decode decoded with
          | none => none
          | some decoded_str =>
            match splitAtSub ":".data decoded_str with
            | none => none
            | some (username, password) =>
              match contextForUsername s username with
              | none => none
              | some ctx =>
                if ctx.password = password then some ctx else none
      else none

/-- `authenticate_request` from `proxy/auth.rs` (lines 10-36): whitespace
tokenization, case-insensitive `basic` scheme, base64+UTF-8 decode,
split at the first `:`, lookup and password comparison. -/
def authenticate_request (hdr : Option (List Nat)) (state : ProxyState) :
    Option ProxyContext :=
  match hdr with
  | none => none
  | some raw =>
    match headerToStr raw with
    | none => none
    | some auth_str =>
      match splitWhitespace auth_str with
      | [p0, p1] =>
        if eqIgnoreAsciiCase p0 "basic".data then
          match b64Decode p1 with
          | none => none
          | some decoded =>
            match utf8Decode decoded with
            | none => none
            | some decoded_str =>
              match splitAtSub ":".data decoded_str with
              | none => none
              | some (username, password) =>
                match get_context_by_username state username with
                | none => none
                | some context =>
                  if context.password = password then some context else none
        else none
      | _ => none

/-! ## Request dispatch -/

/-- The parts of an incoming hyper `Request` the dispatch level reads.
Header names are normalized lowercase; values are raw bytes. -/
structure Req where
  method : Str
  headers : List (Str × List Nat)
deriving DecidableEq, Repr

/-- `is_upgrade_request` (preview_proxy.rs lines 687-695 and
proxy/handlers.rs lines 69-76, identical logic): the `Connection` header
contains `upgrade` case-insensitively and an `Upgrade` header exists. -/
def is_upgrade_request (req : Req) : Bool :=
  (match (lookupA req.headers "connection".data).bind headerToStr with
   | some v => containsSub "upgrade".data (lowerStr v)
   | none => false)
  && (lookupA req.headers "upgrade".data).isSome

/-- The three forwarding modes of the request classifier. -/
inductive ReqKind where
  | connect
  | upgrade
  | plain
deriving DecidableEq, Repr

/-- How the top-level handler disposed of a request: rejected with a
response before any upstream work, or authenticated and forwarded to one
of the three handlers. -/
inductive HandleOutcome where
  | reject (resp : Resp)
  | forward (ctx : ProxyContext) (kind : ReqKind)
deriving DecidableEq, Repr

/-- The method/header classification shared by both `handle_request`s. -/
def classifyReq (req : Req) : ReqKind :=
  if req.method = "CONNECT".data then .connect
  else if is_upgrade_request req then .upgrade
  else .plain

/-- `handle_request` from `preview_proxy.rs` (lines 330-362) at the
dispatch level: authenticate, else 407; on success forward to the
handler selected by the classifier. -/
def handle_requestP (state : SharedState) (req : Req) : HandleOutcome :=
  match previewAuthenticate
      (lookupA req.headers "proxy-authorization".data) state with
  | none => .reject respond_proxy_auth_required
  | some ctx => .forward ctx (classifyReq req)

/-- `handle_request` from `proxy/handlers.rs` (lines 36-66) at the
dispatch level. -/
def handle_requestM (state : ProxyState) (req : Req) : HandleOutcome :=
  match authenticate_request
      (lookupA req.headers "proxy-authorization".data) state with
  | none => .reject respond_proxy_auth_required
  | some ctx => .forward ctx (classifyReq req)

/-! ## CONNECT handling -/

/-- The client-visible outcome of the preview `handle_connect`: the
immediate response, the address the spawned tunnel task will dial, and
the bytes the task writes into the upgraded stream when that dial
fails. -/
structure ConnectOutcome where
  response : Resp
  dialHost : Str
  dialPort : Nat
  onDialFail : Str
deriving DecidableEq, Repr

/-- `handle_connect` from `preview_proxy.rs` (lines 612-685), for a
request carrying the authority `host[:port]`.  The `200` response is
built and returned before the spawned task attempts the upstream dial;
a failed dial writes a synthesized `502` into the upgraded stream. -/
def handle_connectP (ctx : ProxyContext) (host : Str) (port : Option Nat) :
    Except Resp ConnectOutcome := do
  let target_url : Url := ⟨"https".data, some host, port⟩
  let rewritten ← rewrite_targetP target_url ctx
  let h ← match rewritten.url.host with
    | some h => Except.ok h
    | none => Except.error (response_with 502 "missing upstream host".data)
  Except.ok
    { response := ⟨200, [("connection".data, "upgrade".data)], []⟩,
      dialHost := h,
      dialPort := rewritten.connect_port,
      onDialFail := "HTTP/1.1 502 Bad Gateway\r\nContent-Length: 0\r\n\r\n".data }

/-- `error_response` from `proxy/handlers.rs`. -/
def error_response (status : Nat) (message : Str) : Resp :=
  ⟨status, [], message⟩

/-- Models Rust `str::parse::<u16>`: optional leading `+`, decimal
digits, value at most 65535. -/
def parseU16 (s : Str) : Option Nat :=
  let t := match s with
    | '+' :: rest => rest
    | _ => s
  if t.isEmpty ∨ ¬ t.all (fun c => isAsciiDigit c) then none
  else
    let v := t.foldl (fun acc c => acc * 10 + (c.toNat - 48)) 0
    if v ≤ 65535 then some v else none

/-- `parse_host_port` from `proxy/handlers.rs` (lines 321-329):
`rsplitn(2, ':')`, so the split is at the last colon. -/
def parse_host_port (authority : Str) : Option (Str × Nat) :=
  match splitAtSub ":".data authority.reverse with
  | none => none
  | some (revPort, revHost) =>
    (parseU16 revPort.reverse).map (fun p => (revHost.reverse, p))

/-- `handle_connect` from `proxy/handlers.rs` (lines 202-292): this
variant dials the upstream before responding; `dialOk` is the outcome of
that dial.  Only on a successful dial does the client receive a `200`,
and that `200` carries no headers. -/
def handle_connectM (ctx : ProxyContext) (authority : Str)
    (dialOk : Bool) : Resp :=
  match parse_host_port authority with
  | none => error_response 400 "Invalid CONNECT target".data
  | some (host, port) =>
    let target_url : Url := ⟨"https".data, some host, some port⟩
    let rewritten := (rewrite_targetM target_url ctx).1
    let _final_host := rewritten.host.getD host
    let _final_port := determine_requested_portM rewritten
    if dialOk then ⟨200, [], []⟩
    else error_response 502 "Connection failed".data

/-! ## Upgrade handling (client-facing response construction) -/

/-- Copying a hyper `HeaderMap` by iterating and inserting into an empty
map, as both upgrade handlers do. -/
def copyHeaders (hs : List (Str × Str)) : List (Str × Str) :=
  hs.foldl (fun m nv => insertA nv.1 nv.2 m) []

/-- The client response built by `handle_upgrade` in `preview_proxy.rs`
(lines 537-584) from the upstream response: a non-101 upstream response
is mirrored (status, headers, body); a 101 is mirrored with an empty
body and `Connection: upgrade` forced. -/
def upgrade_client_responseP (upstream : Resp) : Resp :=
  if upstream.status ≠ 101 then
    ⟨upstream.status, copyHeaders upstream.headers, upstream.body⟩
  else
    ⟨101, insertA "connection".data "upgrade".data (copyHeaders upstream.headers),
     []⟩

/-- The client response built by `handle_upgrade` in `proxy/handlers.rs`
(lines 192-198): the upstream response is passed through unchanged in
both the non-101 and the 101 case. -/
def upgrade_client_responseM (upstream : Resp) : Resp := upstream

/-! ## Registry operation sequences (for the registry-bijection claim) -/

/-- A registry operation at the control surface: `configure` is
`preview_proxy_configure` (release, then register a generated context);
`release` is `preview_proxy_release`. -/
inductive RegOp where
  | configure (id : Int) (pk : Option Str) (route : Option ProxyRoute)
      (userRand pw : Str)
  | release (id : Int)
deriving DecidableEq, Repr

/-- Apply one registry operation. -/
def applyOp (s : SharedState) : RegOp → SharedState
  | .configure id pk route userRand pw =>
    (previewProxyConfigure s id pk route userRand pw).1
  | .release id => (releaseByWebContents s id).1

/-- Apply a sequence of registry operations. -/
def applyOps (s : SharedState) (ops : List RegOp) : SharedState :=
  ops.foldl applyOp s

/-- Admissibility of one operation in a given state: a `configure` must
generate a username that is not currently live.  This mirrors the
source, whose usernames embed the context id and fresh `OsRng` hex, so
a collision with a live username does not occur. -/
def opAdmissible (s : SharedState) : RegOp → Bool
  | .configure id _ _ userRand _ =>
    (lookupA s.contexts_by_username
      ("wc-".data ++ intRepr id ++ "-".data ++ userRand)).isNone
  | .release _ => true

/-- Admissibility of an operation sequence from a starting state. -/
def opsAdmissible : SharedState → List RegOp → Bool
  | _, [] => true
  | s, op :: rest => opAdmissible s op && opsAdmissible (applyOp s op) rest

/-- The two registry indices are inverse views of the same set of live
contexts: a username maps to a context with a given id exactly when the
id maps back to that username. -/
def InverseViews (s : SharedState) : Prop :=
  (∀ u ctx, lookupA s.contexts_by_username u = some ctx →
     ctx.username = u ∧
     lookupA s.contexts_by_web_contents ctx.web_contents_id = some u) ∧
  (∀ i u, lookupA s.contexts_by_web_contents i = some u →
     ∃ ctx, lookupA s.contexts_by_username u = some ctx ∧
       ctx.web_contents_id = i)

/-! ## Spec-side statements used by the loopback-classifier claim -/

/-- The condition under which the `proxy/` module classifier accepts a
hostname, stated in the spec's vocabulary. -/
def specLoopbackCondM (hostname : Str) : Prop :=
  lowerStr hostname ∈
      ["localhost".data, "127.0.0.1".data, "::1".data, "[::1]".data] ∨
  startsWith "127.".data hostname = true ∨
  startsWith "[::ffff:127.".data hostname = true

/-- The condition under which the `preview_proxy` classifier accepts a
hostname, stated in the spec's vocabulary: literal set, `.localhost`
suffix, or parsing as a dotted-quad IPv4 address with first octet 127. -/
def specLoopbackCondP (host : Str) : Prop :=
  lowerStr (trimBrackets (trimStr host)) ∈
      ["localhost".data, "127.0.0.1".data, "0.0.0.0".data, "::1".data,
       "::ffff:127.0.0.1".data] ∨
  endsWith ".localhost".data (lowerStr (trimBrackets (trimStr host))) = true ∨
  ∃ a b c d, parseIpv4 (lowerStr (trimBrackets (trimStr host)))
      = some (a, b, c, d) ∧ a = 127

/-! ## Decode chains used by the authentication claim -/

/-- The `Proxy-Authorization` header decodes to the pair `(u, p)` under
the `preview_proxy.rs` rules: readable as a hyper header string, exact
`Basic ` scheme prefix, standard base64, valid UTF-8, split at the first
colon. -/
def basicDecodesP (hdr : Option (List Nat)) (u p : Str) : Prop :=
  ∃ raw value decoded dstr,
    hdr = some raw ∧
    headerToStr raw = some value ∧
    startsWith "Basic ".data value = true ∧
    b64Decode (value.drop 6) = some decoded ∧
    utf8Decode decoded = some dstr ∧
    splitAtSub ":".data dstr = some (u, p)

/-- The `Proxy-Authorization` header decodes to the pair `(u, p)` under
the `proxy/auth.rs` rules: readable as a hyper header string, exactly
two whitespace-separated tokens with a case-insensitive `basic` scheme,
standard base64, valid UTF-8, split at the first colon. -/
def basicDecodesM (hdr : Option (List Nat)) (u p : Str) : Prop :=
  ∃ raw value p1 decoded dstr,
    hdr = some raw ∧
    headerToStr raw = some value ∧
    (∃ p0, splitWhitespace value = [p0, p1] ∧
      eqIgnoreAsciiCase p0 "basic".data = true) ∧
    b64Decode p1 = some decoded ∧
    utf8Decode decoded = some dstr ∧
    splitAtSub ":".data dstr = some (u, p)

/-- Lowercase ASCII alphanumeric characters. -/
def isLowerAlnum (c : Char) : Bool := ('a' ≤ c ∧ c ≤ 'z') ∨ isAsciiDigit c

/-- A character acceptable to the modelled URL host parser that is also
unchanged by lowercasing — the character-level condition under which the
route round-trip goes through. -/
def hostCharOk (c : Char) : Prop :=
  asciiLower c = c ∧
  (('a' ≤ c ∧ c ≤ 'z') ∨ ('A' ≤ c ∧ c ≤ 'Z') ∨ isAsciiDigit c = true ∨
    c = '-' ∨ c = '.' ∨ c = '_') ∧
  ¬(c = '/' ∨ c = '?' ∨ c = '#') ∧ c ≠ ':'

instance (c : Char) : Decidable (hostCharOk c) := by
  unfold hostCharOk
  infer_instance

/-! ## Association-list lemmas -/

theorem lookupA_eraseA {α β : Type} [DecidableEq α] (m : List (α × β))
    (k key : α) :
    lookupA (eraseA k m) key = if key = k then none else lookupA m key := by
  induction m with
  | nil => simp [eraseA, lookupA]
  | cons kv rest ih =>
    by_cases hk : kv.1 = k
    · have hdrop : eraseA k (kv :: rest) = eraseA k rest := by
        simp [eraseA, List.filter_cons, hk]
      rw [hdrop, ih]
      by_cases hky : key = k
      · simp [hky]
      · simp [hky, lookupA, show ¬key = kv.1 from fun h => hky (h.trans hk)]
    · have hkeep : eraseA k (kv :: rest) = kv :: eraseA k rest := by
        simp [eraseA, List.filter_cons, hk]
      rw [hkeep]
      by_cases hky : key = kv.1
      · have hkk : ¬key = k := fun h => hk (hky.symm.trans h)
        simp [lookupA, hky, hkk, hk]
      · simp [lookupA, hky, ih]

theorem lookupA_insertA {α β : Type} [DecidableEq α] (m : List (α × β))
    (k : α) (v : β) (key : α) :
    lookupA (insertA k v m) key = if key = k then some v else lookupA m key := by
  by_cases h : key = k
  · simp [insertA, lookupA, h]
  · simp [insertA, lookupA, h, lookupA_eraseA]

theorem lookupA_append {α β : Type} [DecidableEq α] (a b : List (α × β))
    (key : α) :
    lookupA (a ++ b) key =
      match lookupA a key with
      | some v => some v
      | none => lookupA b key := by
  induction a with
  | nil => simp [lookupA]
  | cons kv rest ih =>
    by_cases h : key = kv.1
    · simp [lookupA, h]
    · simp [lookupA, h, ih]

theorem lookupA_eq_none_of_not_mem {α β : Type} [DecidableEq α]
    (m : List (α × β)) (key : α) (h : key ∉ m.map Prod.fst) :
    lookupA m key = none := by
  induction m with
  | nil => simp [lookupA]
  | cons kv rest ih =>
    simp only [List.map_cons, List.mem_cons] at h
    push_neg at h
    simp [lookupA, h.1, ih h.2]

theorem lookupA_reverse_of_nodup {α β : Type} [DecidableEq α]
    (m : List (α × β)) (key : α) (h : (m.map Prod.fst).Nodup) :
    lookupA m.reverse key = lookupA m key := by
  induction m with
  | nil => simp
  | cons kv rest ih =>
    simp only [List.map_cons, List.nodup_cons] at h
    rw [List.reverse_cons, lookupA_append, ih h.2]
    by_cases hk : key = kv.1
    · rw [hk, lookupA_eq_none_of_not_mem rest kv.1 h.1]
      simp [lookupA]
    · cases hrest : lookupA rest key with
      | some v => simp [lookupA, hk, hrest]
      | none => simp [lookupA, hk, hrest]

theorem lookupA_foldl_insertA (hs acc : List (Str × Str)) (n : Str) :
    lookupA (hs.foldl (fun m nv => insertA nv.1 nv.2 m) acc) n =
      match lookupA hs.reverse n with
      | some v => some v
      | none => lookupA acc n := by
  induction hs generalizing acc with
  | nil => simp [lookupA]
  | cons x t ih =>
    rw [List.foldl_cons, ih, List.reverse_cons, lookupA_append]
    cases ht : lookupA t.reverse n with
    | some v => simp
    | none =>
      rw [lookupA_insertA]
      by_cases hx : n = x.1
      · simp [lookupA, hx]
      · simp [lookupA, hx]

theorem lookupA_copyHeaders (hs : List (Str × Str)) (n : Str)
    (h : (hs.map Prod.fst).Nodup) :
    lookupA (copyHeaders hs) n = lookupA hs n := by
  rw [copyHeaders, lookupA_foldl_insertA, lookupA_reverse_of_nodup hs n h]
  cases lookupA hs n <;> simp [lookupA]

/-! ## Registry invariant lemmas -/

theorem inverseViews_empty : InverseViews SharedState.empty := by
  constructor
  · intro u ctx h
    simp [SharedState.empty, lookupA] at h
  · intro i u h
    simp [SharedState.empty, lookupA] at h

theorem release_fst_of_inv (s : SharedState) (id : Int) (u : Str)
    (h : InverseViews s)
    (hwc : lookupA s.contexts_by_web_contents id = some u) :
    (releaseByWebContents s id).1 =
      ⟨eraseA u s.contexts_by_username, eraseA id s.contexts_by_web_contents⟩ := by
  obtain ⟨ctx, hcu, _⟩ := h.2 id u hwc
  unfold releaseByWebContents
  rw [hwc]
  simp only [hcu]

theorem release_fst_of_none (s : SharedState) (id : Int)
    (hwc : lookupA s.contexts_by_web_contents id = none) :
    (releaseByWebContents s id).1 = s := by
  unfold releaseByWebContents
  rw [hwc]

theorem inverseViews_release (s : SharedState) (id : Int)
    (h : InverseViews s) : InverseViews (releaseByWebContents s id).1 := by
  obtain ⟨hf, hb⟩ := h
  cases hwc : lookupA s.contexts_by_web_contents id with
  | none => rw [release_fst_of_none s id hwc]; exact ⟨hf, hb⟩
  | some u =>
    rw [release_fst_of_inv s id u ⟨hf, hb⟩ hwc]
    constructor
    · intro u' ctx' h'
      rw [lookupA_eraseA] at h'
      by_cases hu : u' = u
      · simp [hu] at h'
      · rw [if_neg hu] at h'
        obtain ⟨hname, hwcl⟩ := hf u' ctx' h'
        refine ⟨hname, ?_⟩
        rw [lookupA_eraseA]
        by_cases hid : ctx'.web_contents_id = id
        · exfalso
          rw [hid, hwc] at hwcl
          exact hu (Option.some.inj hwcl).symm
        · rw [if_neg hid]; exact hwcl
    · intro i u' h'
      rw [lookupA_eraseA] at h'
      by_cases hi : i = id
      · simp [hi] at h'
      · rw [if_neg hi] at h'
        obtain ⟨ctx', hcu', hwcid⟩ := hb i u' h'
        refine ⟨ctx', ?_, hwcid⟩
        rw [lookupA_eraseA]
        by_cases hu : u' = u
        · exfalso
          obtain ⟨ctx, hcu, hci⟩ := hb id u hwc
          rw [hu, hcu] at hcu'
          obtain rfl : ctx = ctx' := Option.some.inj hcu'
          exact hi (hwcid.symm.trans hci)
        · rw [if_neg hu]; exact hcu'

theorem inverseViews_release_wc_none (s : SharedState) (id : Int)
    (h : InverseViews s) :
    lookupA ((releaseByWebContents s id).1).contexts_by_web_contents id = none := by
  cases hwc : lookupA s.contexts_by_web_contents id with
  | none => rw [release_fst_of_none s id hwc]; exact hwc
  | some u =>
    rw [release_fst_of_inv s id u h hwc]
    simp [lookupA_eraseA]

theorem lookupA_eraseA_none {α β : Type} [DecidableEq α]
    (m : List (α × β)) (k key : α) (h : lookupA m key = none) :
    lookupA (eraseA k m) key = none := by
  rw [lookupA_eraseA]
  by_cases hk : key = k <;> simp [hk, h]

theorem inverseViews_register (s1 : SharedState) (ctx : ProxyContext)
    (h : InverseViews s1)
    (hwc1 : lookupA s1.contexts_by_web_contents ctx.web_contents_id = none)
    (hfresh1 : lookupA s1.contexts_by_username ctx.username = none) :
    InverseViews (registerContext s1 ctx) := by
  constructor
  · intro u' ctx' h'
    simp only [registerContext] at h' ⊢
    rw [lookupA_insertA] at h'
    by_cases hu : u' = ctx.username
    · rw [if_pos hu] at h'
      obtain rfl := Option.some.inj h'
      refine ⟨hu.symm, ?_⟩
      rw [lookupA_insertA, if_pos rfl, hu]
    · rw [if_neg hu] at h'
      obtain ⟨hname, hwcl⟩ := h.1 u' ctx' h'
      refine ⟨hname, ?_⟩
      rw [lookupA_insertA]
      by_cases hi : ctx'.web_contents_id = ctx.web_contents_id
      · exfalso
        rw [hi, hwc1] at hwcl
        exact Option.noConfusion hwcl
      · rw [if_neg hi]; exact hwcl
  · intro i u' h'
    simp only [registerContext] at h' ⊢
    rw [lookupA_insertA] at h'
    by_cases hi : i = ctx.web_contents_id
    · rw [if_pos hi] at h'
      obtain rfl := Option.some.inj h'
      exact ⟨ctx, by rw [lookupA_insertA, if_pos rfl], hi.symm⟩
    · rw [if_neg hi] at h'
      obtain ⟨ctx', hcu', hwcid⟩ := h.2 i u' h'
      refine ⟨ctx', ?_, hwcid⟩
      rw [lookupA_insertA]
      by_cases hu : u' = ctx.username
      · exfalso
        rw [hu, hfresh1] at hcu'
        exact Option.noConfusion hcu'
      · rw [if_neg hu]; exact hcu'

theorem inverseViews_configure (s : SharedState) (id : Int)
    (pk : Option Str) (route : Option ProxyRoute) (userRand pw : Str)
    (h : InverseViews s)
    (hfresh : lookupA s.contexts_by_username
      ("wc-".data ++ intRepr id ++ "-".data ++ userRand) = none) :
    InverseViews (previewProxyConfigure s id pk route userRand pw).1 := by
  unfold previewProxyConfigure
  by_cases hid0 : id = 0
  · simpa [hid0] using h
  · rw [if_neg hid0]
    have hwc1 : lookupA ((releaseByWebContents s id).1).contexts_by_web_contents
        id = none := inverseViews_release_wc_none s id h
    have hfresh1 : lookupA ((releaseByWebContents s id).1).contexts_by_username
        ("wc-".data ++ intRepr id ++ "-".data ++ userRand) = none := by
      cases hwc : lookupA s.contexts_by_web_contents id with
      | none => rw [release_fst_of_none s id hwc]; exact hfresh
      | some u =>
        rw [release_fst_of_inv s id u h hwc]
        exact lookupA_eraseA_none _ _ _ hfresh
    exact inverseViews_register _ _ (inverseViews_release s id h) hwc1 hfresh1

theorem inverseViews_applyOp (s : SharedState) (op : RegOp)
    (h : InverseViews s) (hadm : opAdmissible s op = true) :
    InverseViews (applyOp s op) := by
  cases op with
  | configure id pk route userRand pw =>
    simp only [opAdmissible, Option.isNone_iff_eq_none] at hadm
    exact inverseViews_configure s id pk route userRand pw h hadm
  | release id => exact inverseViews_release s id h

theorem inverseViews_applyOps (ops : List RegOp) :
    ∀ s : SharedState, InverseViews s → opsAdmissible s ops = true →
      InverseViews (applyOps s ops) := by
  induction ops with
  | nil => intro s h _; simpa [applyOps] using h
  | cons op rest ih =>
    intro s h hadm
    rw [show opsAdmissible s (op :: rest) =
          (opAdmissible s op && opsAdmissible (applyOp s op) rest) from rfl,
        Bool.and_eq_true] at hadm
    have h1 : InverseViews (applyOp s op) :=
      inverseViews_applyOp s op h hadm.1
    have hfold : applyOps s (op :: rest) = applyOps (applyOp s op) rest := by
      simp [applyOps]
    rw [hfold]
    exact ih (applyOp s op) h1 hadm.2

/-! ## Claim C4 -/

/-- C4 counterexample: calling the raw `register_context` twice for the
same `context_id` with different generated usernames leaves a stale
entry.  The username `wc-1-aaaaaaaa` still maps to a live context whose
`context_id` is 1, yet the `context_id` index maps 1 back to the other
username `wc-1-bbbbbbbb`, so the two indices are not inverse views after
an arbitrary register/register sequence. -/
theorem C4_counterexample :
    lookupA (registerContext (registerContext SharedState.empty
        ⟨"wc-1-aaaaaaaa".data, "pw1".data, 1, none, none⟩)
        ⟨"wc-1-bbbbbbbb".data, "pw2".data, 1, none, none⟩).contexts_by_username
      "wc-1-aaaaaaaa".data =
      some ⟨"wc-1-aaaaaaaa".data, "pw1".data, 1, none, none⟩ ∧
    lookupA (registerContext (registerContext SharedState.empty
        ⟨"wc-1-aaaaaaaa".data, "pw1".data, 1, none, none⟩)
        ⟨"wc-1-bbbbbbbb".data, "pw2".data, 1, none, none⟩).contexts_by_web_contents
      (1 : Int) = some "wc-1-bbbbbbbb".data ∧
    "wc-1-bbbbbbbb".data ≠ "wc-1-aaaaaaaa".data := by
  decide

/-- C4 (amended): after any finite sequence of registration
(`preview_proxy_configure`: release any previous context for the id,
then register a generated context) and release operations starting from
the empty registry — including re-registering an already-registered
`context_id` — and provided each generated username is fresh among live
usernames (as the id-plus-random-hex generation scheme ensures), the
username index and the `context_id` index are inverse views of the same
live contexts, and releasing by a `context_id` removes the entry from
both indices.  The raw `register_context`/`add_context` insertions
alone do not evict a previous registration, so a bare
register/register sequence violates the invariant (see the
counterexample). -/
theorem C4_registry_inverse_views (ops : List RegOp)
    (hadm : opsAdmissible SharedState.empty ops = true) :
    InverseViews (applyOps SharedState.empty ops) ∧
    (∀ id u,
      lookupA (applyOps SharedState.empty ops).contexts_by_web_contents id
        = some u →
      lookupA ((releaseByWebContents (applyOps SharedState.empty ops) id).1).contexts_by_web_contents
        id = none ∧
      lookupA ((releaseByWebContents (applyOps SharedState.empty ops) id).1).contexts_by_username
        u = none) := by
  have hinv : InverseViews (applyOps SharedState.empty ops) :=
    inverseViews_applyOps ops SharedState.empty inverseViews_empty hadm
  refine ⟨hinv, ?_⟩
  intro id u hwc
  rw [release_fst_of_inv _ id u hinv hwc]
  constructor
  · simp [lookupA_eraseA]
  · simp [lookupA_eraseA]

/-- Witness for C4: a concrete admissible sequence that re-registers
context id 1 and then registers id 2. -/
theorem C4_registry_inverse_views_witness :
    opsAdmissible SharedState.empty
      [RegOp.configure 1 none none "aaaaaaaa".data "pw1".data,
       RegOp.configure 1 none none "bbbbbbbb".data "pw2".data,
       RegOp.configure 2 none none "cccccccc".data "pw3".data] = true ∧
    (InverseViews (applyOps SharedState.empty
      [RegOp.configure 1 none none "aaaaaaaa".data "pw1".data,
       RegOp.configure 1 none none "bbbbbbbb".data "pw2".data,
       RegOp.configure 2 none none "cccccccc".data "pw3".data]) ∧
    (∀ id u,
      lookupA (applyOps SharedState.empty
        [RegOp.configure 1 none none "aaaaaaaa".data "pw1".data,
         RegOp.configure 1 none none "bbbbbbbb".data "pw2".data,
         RegOp.configure 2 none none "cccccccc".data "pw3".data]).contexts_by_web_contents
        id = some u →
      lookupA ((releaseByWebContents (applyOps SharedState.empty
        [RegOp.configure 1 none none "aaaaaaaa".data "pw1".data,
         RegOp.configure 1 none none "bbbbbbbb".data "pw2".data,
         RegOp.configure 2 none none "cccccccc".data "pw3".data]) id).1).contexts_by_web_contents
        id = none ∧
      lookupA ((releaseByWebContents (applyOps SharedState.empty
        [RegOp.configure 1 none none "aaaaaaaa".data "pw1".data,
         RegOp.configure 1 none none "bbbbbbbb".data "pw2".data,
         RegOp.configure 2 none none "cccccccc".data "pw3".data]) id).1).contexts_by_username
        u = none)) :=
  ⟨by decide,
   C4_registry_inverse_views
     [RegOp.configure 1 none none "aaaaaaaa".data "pw1".data,
      RegOp.configure 1 none none "bbbbbbbb".data "pw2".data,
      RegOp.configure 2 none none "cccccccc".data "pw3".data] (by decide)⟩

/-! ## Claims C10 and C9: rewrite identity -/

/-- C10: when the context carries no route, both `rewrite_target`
implementations return the input URL unchanged for every request target,
loopback hosts included, so such requests are forwarded to the literal
loopback host. -/
theorem C10_no_route_identity (url : Url) (ctx : ProxyContext)
    (h : ctx.route = none) :
    (rewrite_targetM url ctx).1 = url ∧
    (rewrite_targetP url ctx).map (fun t => t.url) = .ok url := by
  constructor
  · simp [rewrite_targetM, h]
  · simp [rewrite_targetP, h, Except.instMonad, Except.bind, Except.map]

/-- Witness for C10 at a loopback target. -/
theorem C10_no_route_identity_witness :
    (⟨"u".data, "p".data, 7, none, none⟩ : ProxyContext).route = none ∧
    ((rewrite_targetM ⟨"http".data, some "127.0.0.1".data, some 3000⟩
        ⟨"u".data, "p".data, 7, none, none⟩).1 =
      ⟨"http".data, some "127.0.0.1".data, some 3000⟩ ∧
    (rewrite_targetP ⟨"http".data, some "127.0.0.1".data, some 3000⟩
        ⟨"u".data, "p".data, 7, none, none⟩).map (fun t => t.url) =
      .ok ⟨"http".data, some "127.0.0.1".data, some 3000⟩) :=
  ⟨rfl, C10_no_route_identity ⟨"http".data, some "127.0.0.1".data, some 3000⟩
    ⟨"u".data, "p".data, 7, none, none⟩ rfl⟩

/-- C9: for a request target whose host each implementation's classifier
does not consider loopback, rewriting is the identity: the rewritten
URL keeps the input's host, optional port and scheme (the module
variant also reports the secure flag from the input scheme; in the
module pipeline the target was already `ws`-to-`http` normalized by
`parse_request_url` before reaching the rewriter). -/
theorem C9_non_loopback_passthrough (url : Url) (ctx : ProxyContext)
    (host : Str) (hh : url.host = some host)
    (hm : is_loopback_hostnameM host = false)
    (hp : is_loopback_hostnameP host = false) :
    rewrite_targetM url ctx =
      (url, decide (url.scheme = "https".data ∨ url.scheme = "wss".data)) ∧
    (rewrite_targetP url ctx).map (fun t => t.url) = .ok url := by
  constructor
  · cases hr : ctx.route with
    | none => simp [rewrite_targetM, hr]
    | some route => simp [rewrite_targetM, hr, hh, hm]
  · cases hr : ctx.route with
    | none => simp [rewrite_targetP, hr, Except.instMonad, Except.bind, Except.map]
    | some route =>
      simp [rewrite_targetP, hr, hh, hp, Except.instMonad, Except.bind, Except.map]

/-- Witness for C9 mirroring the repository's non-loopback unit test. -/
theorem C9_non_loopback_passthrough_witness :
    (⟨"https".data, some "example.com".data, some 8443⟩ : Url).host =
      some "example.com".data ∧
    is_loopback_hostnameM "example.com".data = false ∧
    is_loopback_hostnameP "example.com".data = false ∧
    (rewrite_targetM ⟨"https".data, some "example.com".data, some 8443⟩
        ⟨"u".data, "p".data, 2, none,
         some ⟨"abc".data, "base".data, "cmux.app".data⟩⟩ =
      (⟨"https".data, some "example.com".data, some 8443⟩,
       decide (("https".data : Str) = "https".data ∨
               ("https".data : Str) = "wss".data)) ∧
    (rewrite_targetP ⟨"https".data, some "example.com".data, some 8443⟩
        ⟨"u".data, "p".data, 2, none,
         some ⟨"abc".data, "base".data, "cmux.app".data⟩⟩).map (fun t => t.url) =
      .ok ⟨"https".data, some "example.com".data, some 8443⟩) :=
  ⟨rfl, by decide, by decide,
   C9_non_loopback_passthrough
     ⟨"https".data, some "example.com".data, some 8443⟩
     ⟨"u".data, "p".data, 2, none,
      some ⟨"abc".data, "base".data, "cmux.app".data⟩⟩
     "example.com".data rfl (by decide) (by decide)⟩

/-! ## Claim C2: loopback rewrite -/

/-- C2 counterexample: in the `proxy/` module's `rewrite_target`, a
loopback `ws` target is rewritten to scheme `wss`, not `https` as the
claim states (the `preview_proxy.rs` variant does force `https`). -/
theorem C2_counterexample :
    (rewrite_targetM ⟨"ws".data, some "localhost".data, some 3000⟩
        ⟨"u".data, "p".data, 1, none,
         some ⟨"m1".data, "base".data, "cmux.app".data⟩⟩).1.scheme =
      "wss".data ∧
    ("wss".data : Str) ≠ "https".data := by
  decide

/-- C2 (amended): for every hostname the respective classifier accepts as
loopback, a route `(m,s,d)` and an explicit port `p` (or the scheme's
default port when the `url` crate elided it), both rewriters replace the
authority by `cmux-m-s-p.d` with no explicit port; `preview_proxy.rs`
always sets the scheme to `https`, while the `proxy/` module sets it to
`wss` for `ws`/`wss` inputs and to `https` otherwise. -/
theorem C2_loopback_rewrite (ctx : ProxyContext) (m s d H : Str)
    (p : Nat) (prt : Option Nat) (scheme : Str)
    (hroute : ctx.route = some ⟨m, s, d⟩)
    (hscheme : scheme = "http".data ∨ scheme = "https".data ∨
      scheme = "ws".data ∨ scheme = "wss".data)
    (hport : prt = some p ∨ (prt = none ∧ schemeDefaultPort scheme = some p)) :
    (is_loopback_hostnameP H = true →
      rewrite_targetP ⟨scheme, some H, prt⟩ ctx =
        .ok ⟨⟨"https".data,
          some ("cmux-".data ++ m ++ "-".data ++ s ++ "-".data ++ natRepr p
            ++ ".".data ++ d), none⟩, 443⟩) ∧
    (is_loopback_hostnameM H = true →
      rewrite_targetM ⟨scheme, some H, prt⟩ ctx =
        (⟨(if scheme = "ws".data ∨ scheme = "wss".data
           then "wss".data else "https".data),
          some ("cmux-".data ++ m ++ "-".data ++ s ++ "-".data ++ natRepr p
            ++ ".".data ++ d), none⟩, true)) := by
  constructor
  · intro hloop
    rcases hport with hprt | ⟨hprt, hdef⟩
    · rcases hscheme with rfl | rfl | rfl | rfl <;>
        simp [rewrite_targetP, hroute, hloop, hprt, determine_requested_portP,
          build_cmux_host, Except.instMonad, Except.bind]
    · rcases hscheme with rfl | rfl | rfl | rfl <;>
        simp [schemeDefaultPort] at hdef <;>
        simp [rewrite_targetP, hroute, hloop, hprt, determine_requested_portP,
          build_cmux_host, hdef.symm, Except.instMonad, Except.bind]
  · intro hloop
    rcases hport with hprt | ⟨hprt, hdef⟩
    · rcases hscheme with rfl | rfl | rfl | rfl <;>
        simp [rewrite_targetM, hroute, hloop, hprt, determine_requested_portM,
          build_cmux_host]
    · rcases hscheme with rfl | rfl | rfl | rfl <;>
        simp [schemeDefaultPort] at hdef <;>
        simp [rewrite_targetM, hroute, hloop, hprt, determine_requested_portM,
          build_cmux_host, hdef.symm]

/-- Witness for C2 mirroring the repository's loopback rewrite test. -/
theorem C2_loopback_rewrite_witness :
    (⟨"wc-1-test".data, "secret".data, 1, none,
      some ⟨"abc123".data, "base".data, "cmux.dev".data⟩⟩ :
        ProxyContext).route =
      some ⟨"abc123".data, "base".data, "cmux.dev".data⟩ ∧
    (("http".data : Str) = "http".data ∨ ("http".data : Str) = "https".data ∨
      ("http".data : Str) = "ws".data ∨ ("http".data : Str) = "wss".data) ∧
    ((some 39378 : Option Nat) = some 39378 ∨
      ((some 39378 : Option Nat) = none ∧
        schemeDefaultPort "http".data = some 39378)) ∧
    ((is_loopback_hostnameP "127.0.0.1".data = true →
      rewrite_targetP ⟨"http".data, some "127.0.0.1".data, some 39378⟩
          ⟨"wc-1-test".data, "secret".data, 1, none,
           some ⟨"abc123".data, "base".data, "cmux.dev".data⟩⟩ =
        .ok ⟨⟨"https".data,
          some ("cmux-".data ++ "abc123".data ++ "-".data ++ "base".data
            ++ "-".data ++ natRepr 39378 ++ ".".data ++ "cmux.dev".data),
          none⟩, 443⟩) ∧
    (is_loopback_hostnameM "127.0.0.1".data = true →
      rewrite_targetM ⟨"http".data, some "127.0.0.1".data, some 39378⟩
          ⟨"wc-1-test".data, "secret".data, 1, none,
           some ⟨"abc123".data, "base".data, "cmux.dev".data⟩⟩ =
        (⟨(if ("http".data : Str) = "ws".data ∨ ("http".data : Str) = "wss".data
           then "wss".data else "https".data),
          some ("cmux-".data ++ "abc123".data ++ "-".data ++ "base".data
            ++ "-".data ++ natRepr 39378 ++ ".".data ++ "cmux.dev".data),
          none⟩, true))) :=
  ⟨rfl, Or.inl rfl, Or.inl rfl,
   C2_loopback_rewrite
     ⟨"wc-1-test".data, "secret".data, 1, none,
      some ⟨"abc123".data, "base".data, "cmux.dev".data⟩⟩
     "abc123".data "base".data "cmux.dev".data "127.0.0.1".data
     39378 (some 39378) "http".data rfl (Or.inl rfl) (Or.inl rfl)⟩

/-! ## Claim C5: CONNECT handling -/

/-- C5 counterexample: in the `proxy/` module's `handle_connect` the
upstream dial happens before any response; a failed dial yields an
initial `502`, and even the success `200` carries no
`Connection: upgrade` header — contradicting the claim that a `200`
with that header is always produced before the dial is attempted. -/
theorem C5_counterexample :
    (handle_connectM ⟨"u".data, "p".data, 1, none, none⟩
      "example.com:80".data false).status = 502 ∧
    lookupA (handle_connectM ⟨"u".data, "p".data, 1, none, none⟩
      "example.com:80".data true).headers "connection".data = none := by
  decide

/-- C5 (amended): in `preview_proxy.rs`, every authenticated CONNECT
request with an authority is answered by `200 OK` with
`Connection: upgrade` and no body, independently of the upstream dial —
the dial happens in the spawned tunnel task, and a failed dial writes a
synthesized `HTTP/1.1 502 Bad Gateway` into the tunnel.  In the
`proxy/` module's `handle_connect`, by contrast, the dial precedes the
response: a failed dial produces an initial `502` and the success `200`
has no headers. -/
theorem C5_connect_response :
    (∀ (ctx : ProxyContext) (host : Str) (prt : Option Nat),
      (handle_connectP ctx host prt).map
          (fun o => (o.response, o.onDialFail)) =
        .ok (⟨200, [("connection".data, "upgrade".data)], []⟩,
          "HTTP/1.1 502 Bad Gateway\r\nContent-Length: 0\r\n\r\n".data)) ∧
    (∀ (ctx : ProxyContext) (authority host : Str) (prt : Nat),
      parse_host_port authority = some (host, prt) →
      handle_connectM ctx authority false =
        error_response 502 "Connection failed".data ∧
      handle_connectM ctx authority true = ⟨200, [], []⟩) := by
  constructor
  · intro ctx host prt
    cases hr : ctx.route with
    | none =>
      cases prt <;>
        simp [handle_connectP, rewrite_targetP, hr, Except.instMonad,
          Except.bind, Except.map]
    | some route =>
      cases hl : is_loopback_hostnameP host <;> cases prt <;>
        simp [handle_connectP, rewrite_targetP, hr, hl,
          determine_requested_portP, Except.instMonad, Except.bind,
          Except.map]
  · intro ctx authority host prt hparse
    constructor <;> simp [handle_connectM, hparse]

/-- Witness for C5 covering both implementations at Scenario A's
shape. -/
theorem C5_connect_response_witness :
    ((handle_connectP
        ⟨"u".data, "p".data, 1, none,
         some ⟨"abc".data, "base".data, "cmux.app".data⟩⟩
        "127.0.0.1".data (some 7000)).map
        (fun o => (o.response, o.onDialFail)) =
      .ok (⟨200, [("connection".data, "upgrade".data)], []⟩,
        "HTTP/1.1 502 Bad Gateway\r\nContent-Length: 0\r\n\r\n".data)) ∧
    (parse_host_port "example.com:80".data = some ("example.com".data, 80) ∧
      (handle_connectM ⟨"u".data, "p".data, 1, none, none⟩
          "example.com:80".data false =
        error_response 502 "Connection failed".data ∧
      handle_connectM ⟨"u".data, "p".data, 1, none, none⟩
          "example.com:80".data true = ⟨200, [], []⟩)) :=
  ⟨C5_connect_response.1
     ⟨"u".data, "p".data, 1, none,
      some ⟨"abc".data, "base".data, "cmux.app".data⟩⟩
     "127.0.0.1".data (some 7000),
   by decide,
   C5_connect_response.2 ⟨"u".data, "p".data, 1, none, none⟩
     "example.com:80".data "example.com".data 80 (by decide)⟩

/-! ## Claim C6: upgrade response -/

/-- C6 counterexample: the `proxy/` module's `handle_upgrade` passes a
`101` upstream response through unchanged, so when the upstream sends no
`Connection` header the client's `101` carries none either —
contradicting the claim that the response contains
`Connection: upgrade` regardless of what the upstream sent. -/
theorem C6_counterexample :
    (upgrade_client_responseM
      ⟨101, [("upgrade".data, "websocket".data)], []⟩).status = 101 ∧
    lookupA (upgrade_client_responseM
      ⟨101, [("upgrade".data, "websocket".data)], []⟩).headers
      "connection".data = none := by
  decide

/-- C6 (amended): in `preview_proxy.rs`, when the upstream answers `101`
the client response has status 101, carries `Connection: upgrade`
regardless of the upstream's `Connection` value, and mirrors every other
upstream header.  In the `proxy/` module's `handle_upgrade` the upstream
response is forwarded unchanged, so `Connection: upgrade` is present
only if the upstream itself sent it. -/
theorem C6_upgrade_response :
    (∀ up : Resp, up.status = 101 → (up.headers.map Prod.fst).Nodup →
      (upgrade_client_responseP up).status = 101 ∧
      lookupA (upgrade_client_responseP up).headers "connection".data =
        some "upgrade".data ∧
      (∀ n, n ≠ "connection".data →
        lookupA (upgrade_client_responseP up).headers n =
          lookupA up.headers n)) ∧
    (∀ up : Resp, upgrade_client_responseM up = up) := by
  constructor
  · intro up h101 hnodup
    refine ⟨?_, ?_, ?_⟩
    · simp [upgrade_client_responseP, h101]
    · simp [upgrade_client_responseP, h101, lookupA_insertA]
    · intro n hn
      simp only [upgrade_client_responseP, h101, ne_eq, not_true_eq_false,
        if_false, ite_false]
      have hn' : ¬n = ['c', 'o', 'n', 'n', 'e', 'c', 't', 'i', 'o', 'n'] := hn
      rw [lookupA_insertA, if_neg hn', lookupA_copyHeaders up.headers n hnodup]
  · intro up
    rfl

/-- Witness for C6 at a `101` upstream response that did not itself send
a `Connection` header. -/
theorem C6_upgrade_response_witness :
    ((⟨101, [("upgrade".data, "websocket".data)], []⟩ : Resp).status = 101 ∧
     ((⟨101, [("upgrade".data, "websocket".data)], []⟩ : Resp).headers.map
        Prod.fst).Nodup) ∧
    ((upgrade_client_responseP
        ⟨101, [("upgrade".data, "websocket".data)], []⟩).status = 101 ∧
      lookupA (upgrade_client_responseP
        ⟨101, [("upgrade".data, "websocket".data)], []⟩).headers
        "connection".data = some "upgrade".data ∧
      (∀ n, n ≠ "connection".data →
        lookupA (upgrade_client_responseP
          ⟨101, [("upgrade".data, "websocket".data)], []⟩).headers n =
        lookupA (⟨101, [("upgrade".data, "websocket".data)], []⟩ :
          Resp).headers n)) :=
  ⟨⟨rfl, by decide⟩,
   C6_upgrade_response.1 ⟨101, [("upgrade".data, "websocket".data)], []⟩
     rfl (by decide)⟩

/-! ## Claim C1: authentication completeness -/

theorem previewAuthenticate_some_decodes (hdr : Option (List Nat))
    (s : SharedState) (ctx : ProxyContext)
    (h : previewAuthenticate hdr s = some ctx) :
    ∃ u p, basicDecodesP hdr u p ∧
      contextForUsername s u = some ctx ∧ ctx.password = p := by
  unfold previewAuthenticate at h
  split at h
  · exact Option.noConfusion h
  · rename_i raw
    split at h
    · exact Option.noConfusion h
    · rename_i value hvalue
      split at h
      · rename_i hbasic
        split at h
        · exact Option.noConfusion h
        · rename_i decoded hdec
          split at h
          · exact Option.noConfusion h
          · rename_i dstr hdstr
            split at h
            · exact Option.noConfusion h
            · rename_i username password hsplit
              split at h
              · exact Option.noConfusion h
              · rename_i ctx0 hctx
                split at h
                · rename_i hpw
                  obtain rfl := Option.some.inj h
                  exact ⟨username, password,
                    ⟨raw, value, decoded, dstr, rfl, hvalue, hbasic, hdec,
                     hdstr, hsplit⟩, hctx, hpw⟩
                · exact Option.noConfusion h
      · exact Option.noConfusion h

theorem authenticate_request_some_decodes (hdr : Option (List Nat))
    (state : ProxyState) (ctx : ProxyContext)
    (h : authenticate_request hdr state = some ctx) :
    ∃ u p, basicDecodesM hdr u p ∧
      get_context_by_username state u = some ctx ∧ ctx.password = p := by
  unfold authenticate_request at h
  split at h
  · exact Option.noConfusion h
  · rename_i raw
    split at h
    · exact Option.noConfusion h
    · rename_i value hvalue
      split at h
      · rename_i p0 p1 hsw
        split at h
        · rename_i hbasic
          split at h
          · exact Option.noConfusion h
          · rename_i decoded hdec
            split at h
            · exact Option.noConfusion h
            · rename_i dstr hdstr
              split at h
              · exact Option.noConfusion h
              · rename_i username password hsplit
                split at h
                · exact Option.noConfusion h
                · rename_i ctx0 hctx
                  split at h
                  · rename_i hpw
                    obtain rfl := Option.some.inj h
                    exact ⟨username, password,
                      ⟨raw, value, p1, decoded, dstr, rfl, hvalue,
                       ⟨p0, hsw, hbasic⟩, hdec, hdstr, hsplit⟩, hctx, hpw⟩
                  · exact Option.noConfusion h
        · exact Option.noConfusion h
      · exact Option.noConfusion h

/-- C1: whenever the `Proxy-Authorization` header is absent, malformed
(unreadable header bytes, not the `Basic` scheme, invalid base64 or
UTF-8, or lacking a `:` separator), or its decoded username/password
pair does not exactly match a registered `(username, password)` pair —
i.e. whenever no decodable registered pair exists — both top-level
handlers reject the request with the shared `407` response carrying
`Proxy-Authenticate: Basic realm="Cmux Preview Proxy"`, and the request
is never forwarded to any upstream handler (the outcome is `reject`,
not `forward`). -/
theorem C1_auth_completeness :
    (∀ (state : SharedState) (req : Req),
      (¬ ∃ u p ctx,
        basicDecodesP (lookupA req.headers "proxy-authorization".data) u p ∧
        contextForUsername state u = some ctx ∧ ctx.password = p) →
      handle_requestP state req = .reject respond_proxy_auth_required) ∧
    (∀ (state : ProxyState) (req : Req),
      (¬ ∃ u p ctx,
        basicDecodesM (lookupA req.headers "proxy-authorization".data) u p ∧
        get_context_by_username state u = some ctx ∧ ctx.password = p) →
      handle_requestM state req = .reject respond_proxy_auth_required) ∧
    respond_proxy_auth_required.status = 407 ∧
    lookupA respond_proxy_auth_required.headers "proxy-authenticate".data =
      some "Basic realm=\"Cmux Preview Proxy\"".data := by
  refine ⟨?_, ?_, rfl, by decide⟩
  · intro state req hno
    cases hauth : previewAuthenticate
        (lookupA req.headers "proxy-authorization".data) state with
    | none => simp [handle_requestP, hauth]
    | some ctx =>
      exfalso
      obtain ⟨u, p, hdec, hctx, hpw⟩ :=
        previewAuthenticate_some_decodes _ _ _ hauth
      exact hno ⟨u, p, ctx, hdec, hctx, hpw⟩
  · intro state req hno
    cases hauth : authenticate_request
        (lookupA req.headers "proxy-authorization".data) state with
    | none => simp [handle_requestM, hauth]
    | some ctx =>
      exfalso
      obtain ⟨u, p, hdec, hctx, hpw⟩ :=
        authenticate_request_some_decodes _ _ _ hauth
      exact hno ⟨u, p, ctx, hdec, hctx, hpw⟩

/-- Witness for C1: a request with no headers at all against the empty
registries is rejected with the 407 response by both handlers. -/
theorem C1_auth_completeness_witness :
    handle_requestP SharedState.empty ⟨"GET".data, []⟩ =
      .reject respond_proxy_auth_required ∧
    handle_requestM ProxyState.empty ⟨"GET".data, []⟩ =
      .reject respond_proxy_auth_required :=
  ⟨C1_auth_completeness.1 SharedState.empty ⟨"GET".data, []⟩
     (by
       rintro ⟨u, p, ctx, ⟨raw, value, decoded, dstr, hraw, -⟩, -, -⟩
       exact Option.noConfusion hraw),
   C1_auth_completeness.2.1 ProxyState.empty ⟨"GET".data, []⟩
     (by
       rintro ⟨u, p, ctx, ⟨raw, value, p1, decoded, dstr, hraw, -⟩, -, -⟩
       exact Option.noConfusion hraw)⟩

/-! ## Claim C3: loopback classifier -/

/-- C3 counterexample: the `proxy/` module classifier rejects the literal
`0.0.0.0` and the `.localhost` suffix, both of which the claim says are
classified loopback, and it accepts `127.evil.example`, a non-IP
hostname merely beginning with `127.`, which the claim explicitly says
is rejected; additionally the `preview_proxy.rs` classifier rejects the
expanded IPv6 loopback form `0:0:0:0:0:0:0:1`, which the claim's
IPv6-parse clause says is accepted. -/
theorem C3_counterexample :
    is_loopback_hostnameM "0.0.0.0".data = false ∧
    is_loopback_hostnameM "foo.localhost".data = false ∧
    is_loopback_hostnameM "127.evil.example".data = true ∧
    is_loopback_hostnameP "0:0:0:0:0:0:0:1".data = false := by
  decide

/-- C3 (amended): the `proxy/` module classifier returns true exactly
when the lowercased hostname is one of `localhost`, `127.0.0.1`, `::1`,
`[::1]`, or the hostname (case-sensitively) starts with `127.` or
`[::ffff:127.` — so `0.0.0.0` and `*.localhost` are not recognized and
non-IP names beginning with `127.` are.  The `preview_proxy.rs`
classifier returns true exactly when, after trimming whitespace and
brackets and lowercasing, the name is one of `localhost`, `127.0.0.1`,
`0.0.0.0`, `::1`, `::ffff:127.0.0.1`, ends with `.localhost`, or parses
as a dotted-quad IPv4 address with first octet 127; general IPv6
textual forms are not parsed. -/
theorem C3_loopback_characterization (h : Str) :
    (is_loopback_hostnameM h = true ↔ specLoopbackCondM h) ∧
    (is_loopback_hostnameP h = true ↔ specLoopbackCondP h) := by
  constructor
  · simp [is_loopback_hostnameM, specLoopbackCondM, or_assoc]
  · rw [is_loopback_hostnameP, specLoopbackCondP]
    cases hp : parseIpv4 (lowerStr (trimBrackets (trimStr h))) with
    | none => simp [hp]
    | some ip =>
      obtain ⟨a, b, c, d⟩ := ip
      simp [hp, ipv4IsLoopback, or_assoc]

/-! ## String lemmas for route derivation -/

theorem lowerAlnum_facts (c : Char) (h : isLowerAlnum c = true) :
    asciiLower c = c ∧ c ≠ '-' ∧ c ≠ '.' ∧ c ≠ '/' ∧ c ≠ ':' ∧
      c ≠ '?' ∧ c ≠ '#' := by
  simp only [isLowerAlnum, isAsciiDigit, Bool.or_eq_true,
    decide_eq_true_eq] at h
  obtain ⟨h1, h2⟩ | ⟨h1, h2⟩ := h <;>
    refine ⟨?_, ?_, ?_, ?_, ?_, ?_, ?_⟩ <;>
    first
      | (rw [asciiLower, if_neg]
         rintro ⟨ha, hz⟩
         first
           | exact absurd (le_trans h1 hz) (by decide)
           | exact absurd (le_trans ha h2) (by decide))
      | (rintro rfl
         first
           | exact absurd h1 (by decide)
           | exact absurd h2 (by decide))

theorem digit_isLowerAlnum (c : Char) (h : isAsciiDigit c = true) :
    isLowerAlnum c = true := by
  simp only [isLowerAlnum, Bool.or_eq_true, decide_eq_true_eq]
  simp only [isAsciiDigit, decide_eq_true_eq] at h
  right
  simpa [isAsciiDigit] using h

theorem isAsciiDigit_ofNat (k : Nat) (h : k < 10) :
    isAsciiDigit (Char.ofNat (48 + k)) = true := by
  interval_cases k <;> decide

theorem natReprAux_digits (fuel : Nat) :
    ∀ n, n < fuel → (natReprAux fuel n).all isAsciiDigit = true := by
  induction fuel with
  | zero => intro n h; exact absurd h (Nat.not_lt_zero n)
  | succ f ih =>
    intro n h
    rw [natReprAux]
    by_cases h10 : n < 10
    · simp [h10, isAsciiDigit_ofNat n h10]
    · have hdiv : n / 10 < f := by omega
      simp [h10, List.all_append, ih (n / 10) hdiv,
        isAsciiDigit_ofNat (n % 10) (Nat.mod_lt n (by omega))]

theorem natRepr_digits (n : Nat) : (natRepr n).all isAsciiDigit = true :=
  natReprAux_digits (n + 1) n (Nat.lt_succ_self n)

theorem natReprAux_ne_nil (fuel n : Nat) (h : n < fuel) :
    natReprAux fuel n ≠ [] := by
  cases fuel with
  | zero => exact absurd h (Nat.not_lt_zero n)
  | succ f =>
    rw [natReprAux]
    by_cases h10 : n < 10 <;> simp [h10]

theorem natRepr_ne_nil (n : Nat) : natRepr n ≠ [] :=
  natReprAux_ne_nil (n + 1) n (Nat.lt_succ_self n)

theorem splitSep_ne_nil (sep : Char) (l : Str) : splitSep sep l ≠ [] := by
  cases l with
  | nil => simp [splitSep]
  | cons c rest =>
    rw [splitSep]
    by_cases h : c = sep
    · simp [h]
    · rw [if_neg h]
      cases splitSep sep rest <;> simp

theorem joinSep_splitSep (sep : Char) (l : Str) :
    joinSep sep (splitSep sep l) = l := by
  have hj3 : ∀ (a q : Str) (qs : List Str),
      joinSep sep (a :: q :: qs) = a ++ sep :: joinSep sep (q :: qs) :=
    fun a q qs => rfl
  induction l with
  | nil => rfl
  | cons c rest ih =>
    rw [splitSep]
    by_cases h : c = sep
    · rw [if_pos h]
      cases hs : splitSep sep rest with
      | nil => exact absurd hs (splitSep_ne_nil sep rest)
      | cons p ps =>
        rw [hs] at ih
        rw [hj3, ih, h]
        rfl
    · rw [if_neg h]
      cases hs : splitSep sep rest with
      | nil => exact absurd hs (splitSep_ne_nil sep rest)
      | cons p ps =>
        rw [hs] at ih
        cases ps with
        | nil =>
          have hp : p = rest := ih
          rw [joinSep, hp]
        | cons q qs =>
          rw [hj3] at ih
          rw [hj3, ← ih]
          rfl

theorem splitSep_no_sep (sep : Char) (p : Str) (h : ∀ c ∈ p, c ≠ sep) :
    splitSep sep p = [p] := by
  induction p with
  | nil => rfl
  | cons c rest ih =>
    rw [splitSep, if_neg (h c (by simp))]
    rw [ih (fun x hx => h x (by simp [hx]))]

theorem splitSep_append_sep (sep : Char) (p t : Str) (h : ∀ c ∈ p, c ≠ sep) :
    splitSep sep (p ++ sep :: t) = p :: splitSep sep t := by
  induction p with
  | nil => simp [splitSep]
  | cons c p' ih =>
    rw [List.cons_append, splitSep, if_neg (h c (by simp))]
    rw [ih (fun x hx => h x (by simp [hx]))]

theorem splitSep_joinSep_parts (sep : Char) (parts : List Str)
    (hne : parts ≠ [])
    (hall : ∀ p ∈ parts, ∀ c ∈ p, c ≠ sep) :
    splitSep sep (joinSep sep parts) = parts := by
  induction parts with
  | nil => exact absurd rfl hne
  | cons p ps ih =>
    cases ps with
    | nil =>
      rw [joinSep]
      exact splitSep_no_sep sep p (hall p (by simp))
    | cons q qs =>
      have hj : joinSep sep (p :: q :: qs) = p ++ sep :: joinSep sep (q :: qs) :=
        rfl
      rw [hj, splitSep_append_sep sep p _ (hall p (by simp))]
      rw [ih (by simp) (fun x hx => hall x (by simp [hx]))]

theorem mem_joinSep (sep : Char) (parts : List Str) (c : Char)
    (h : c ∈ joinSep sep parts) : (∃ p ∈ parts, c ∈ p) ∨ c = sep := by
  induction parts with
  | nil => simp [joinSep] at h
  | cons p ps ih =>
    cases ps with
    | nil =>
      rw [joinSep] at h
      exact Or.inl ⟨p, by simp, h⟩
    | cons q qs =>
      have hj : joinSep sep (p :: q :: qs) = p ++ sep :: joinSep sep (q :: qs) :=
        rfl
      rw [hj] at h
      rcases List.mem_append.mp h with hp | hrest
      · exact Or.inl ⟨p, by simp, hp⟩
      · rcases List.mem_cons.mp hrest with rfl | hj2
        · exact Or.inr rfl
        · rcases ih hj2 with ⟨r, hr, hcr⟩ | rfl
          · exact Or.inl ⟨r, by simp [hr], hcr⟩
          · exact Or.inr rfl

theorem joinSep_append_two (sep : Char) (x y : Str) :
    ∀ A : List Str, A ≠ [] →
      joinSep sep (A ++ [x, y]) = joinSep sep A ++ sep :: x ++ sep :: y := by
  intro A
  induction A with
  | nil => intro h; exact absurd rfl h
  | cons a A' ih =>
    intro _
    cases A' with
    | nil => simp [joinSep]
    | cons b B =>
      have h1 : joinSep sep ((a :: b :: B) ++ [x, y]) =
          a ++ sep :: joinSep sep ((b :: B) ++ [x, y]) := rfl
      have h2 : joinSep sep (a :: b :: B) = a ++ sep :: joinSep sep (b :: B) :=
        rfl
      rw [h1, h2, ih (by simp)]
      simp

theorem isPrefixOf_self_append (p t : Str) :
    List.isPrefixOf p (p ++ t) = true := by
  induction p with
  | nil => simp [List.isPrefixOf]
  | cons c rest ih => simp [List.isPrefixOf, ih]

theorem endsWith_append (suf a : Str) : endsWith suf (a ++ suf) = true := by
  rw [endsWith, List.reverse_append]
  exact isPrefixOf_self_append _ _

theorem isPrefixOf_len_le (u : Str) :
    ∀ t s : Str, List.isPrefixOf t s = true → u.length ≤ t.length →
      List.isPrefixOf u s = List.isPrefixOf u t := by
  induction u with
  | nil => intro t s _ _; simp [List.isPrefixOf]
  | cons c u' ih =>
    intro t s h hlen
    cases t with
    | nil => simp at hlen
    | cons d t' =>
      cases s with
      | nil => simp [List.isPrefixOf] at h
      | cons e s' =>
        simp only [List.isPrefixOf, Bool.and_eq_true, beq_iff_eq] at h
        obtain ⟨rfl, h2⟩ := h
        simp only [List.isPrefixOf]
        rw [ih t' s' h2 (by simpa using hlen)]

theorem endsWith_eq_of_endsWith (u t s : Str) (ht : endsWith t s = true)
    (hlen : u.length ≤ t.length) : endsWith u s = endsWith u t := by
  rw [endsWith, endsWith]
  exact isPrefixOf_len_le u.reverse t.reverse s.reverse ht (by simpa using hlen)

theorem lowerStr_eq_self (H : Str) (h : ∀ c ∈ H, asciiLower c = c) :
    lowerStr H = H := by
  induction H with
  | nil => rfl
  | cons c rest ih =>
    rw [lowerStr, List.map_cons, h c (by simp)]
    have hr := ih (fun x hx => h x (by simp [hx]))
    rw [lowerStr] at hr
    rw [hr]

theorem lowerAlnum_hostCharOk (c : Char) (h : isLowerAlnum c = true) :
    hostCharOk c := by
  obtain ⟨hfix, hd1, hd2, hd3, hd4, hd5, hd6⟩ := lowerAlnum_facts c h
  refine ⟨hfix, ?_, ?_, hd4⟩
  · simp only [isLowerAlnum, isAsciiDigit, Bool.or_eq_true,
      decide_eq_true_eq] at h
    rcases h with h | h
    · exact Or.inl h
    · exact Or.inr (Or.inr (Or.inl (by simp [isAsciiDigit, h])))
  · rintro (rfl | rfl | rfl)
    · exact hd3 rfl
    · exact hd5 rfl
    · exact hd6 rfl

theorem hyphen_hostCharOk : hostCharOk '-' := by decide

theorem digit_hostCharOk (c : Char) (h : isAsciiDigit c = true) :
    hostCharOk c := lowerAlnum_hostCharOk c (digit_isLowerAlnum c h)

theorem urlHostStr_https (H : Str) (hne : H ≠ [])
    (hok : ∀ c ∈ H, hostCharOk c) :
    urlHostStr ("https://".data ++ H) = some (lowerStr H) := by
  have hsplit : splitAtSub "://".data ("https://".data ++ H) =
      some ("https".data, H) := by
    simp [splitAtSub, startsWith, List.isPrefixOf]
  have hauth : H.takeWhile (fun c => ¬(c = '/' ∨ c = '?' ∨ c = '#')) = H :=
    List.takeWhile_eq_self_iff.mpr
      (fun x hx => by simpa using (hok x hx).2.2.1)
  have hhostw : H.takeWhile (fun c => c ≠ ':') = H :=
    List.takeWhile_eq_self_iff.mpr
      (fun x hx => by simpa using (hok x hx).2.2.2)
  have hport : H.dropWhile (fun c => c ≠ ':') = [] :=
    List.dropWhile_eq_nil_iff.mpr
      (fun x hx => by simpa using (hok x hx).2.2.2)
  have hallowed : H.all (fun c =>
      ('a' ≤ c ∧ c ≤ 'z') ∨ ('A' ≤ c ∧ c ≤ 'Z') ∨ isAsciiDigit c ∨
      c = '-' ∨ c = '.' ∨ c = '_') = true := by
    rw [List.all_eq_true]
    intro x hx
    simpa using (hok x hx).2.1
  have hnotempty : H.isEmpty = false := by
    cases H with
    | nil => exact absurd rfl hne
    | cons c t => rfl
  rw [urlHostStr, hsplit]
  simp only [hauth, hhostw, hport, hallowed, hnotempty]
  norm_num

theorem getLastD_append_two (x y : Str) :
    ∀ (A : List Str) (dflt : Str), (A ++ [x, y]).getLastD dflt = y := by
  intro A
  induction A with
  | nil => intro dflt; rfl
  | cons a A' ih =>
    intro dflt
    rw [List.cons_append, List.getLastD_cons]
    exact ih a

theorem getD_append_len (x : Str) (t : List Str) :
    ∀ (A : List Str) (dflt : Str), (A ++ x :: t).getD A.length dflt = x := by
  intro A
  induction A with
  | nil => intro dflt; rfl
  | cons a A' ih =>
    intro dflt
    rw [List.cons_append, List.length_cons, List.getD_cons_succ]
    exact ih dflt

theorem deriveRouteCmuxStep_build (m s P d H : Str)
    (hH : H = "cmux-".data ++ m ++ "-".data ++ s ++ "-".data ++ P
      ++ ".".data ++ d)
    (hm : ∀ part ∈ splitSep '-' m,
      part ≠ [] ∧ ∀ c ∈ part, isLowerAlnum c = true)
    (hs1 : s ≠ []) (hs2 : ∀ c ∈ s, isLowerAlnum c = true)
    (hP1 : P ≠ []) (hP2 : ∀ c ∈ P, isAsciiDigit c = true) :
    deriveRouteCmuxStep H d = some ⟨m, s, d⟩ := by
  have hMne : splitSep '-' m ≠ [] := splitSep_ne_nil '-' m
  have hm_join : joinSep '-' (splitSep '-' m) = m := joinSep_splitSep '-' m
  have hmne : m ≠ [] := by
    intro h0
    have hmem : ([] : Str) ∈ splitSep '-' m := by
      rw [h0]; simp [splitSep]
    exact (hm [] hmem).1 rfl
  have hends : endsWith (".".data ++ d) H = true := by
    rw [hH]
    have h := endsWith_append (".".data ++ d)
      ("cmux-".data ++ m ++ "-".data ++ s ++ "-".data ++ P)
    simpa [List.append_assoc] using h
  have hsub : H.take (H.length - (".".data ++ d).length) =
      "cmux-".data ++ m ++ "-".data ++ s ++ "-".data ++ P := by
    rw [hH]
    have hlen : ("cmux-".data ++ m ++ "-".data ++ s ++ "-".data ++ P
        ++ ".".data ++ d).length - (".".data ++ d).length =
        ("cmux-".data ++ m ++ "-".data ++ s ++ "-".data ++ P).length := by
      simp [List.length_append]
      omega
    rw [hlen]
    rw [show "cmux-".data ++ m ++ "-".data ++ s ++ "-".data ++ P
        ++ ".".data ++ d =
      ("cmux-".data ++ m ++ "-".data ++ s ++ "-".data ++ P)
        ++ (".".data ++ d) from by simp [List.append_assoc]]
    exact List.take_left _ _
  have hpre : startsWith "cmux-".data
      ("cmux-".data ++ m ++ "-".data ++ s ++ "-".data ++ P) = true := by
    rw [show "cmux-".data ++ m ++ "-".data ++ s ++ "-".data ++ P =
      "cmux-".data ++ (m ++ "-".data ++ s ++ "-".data ++ P) from by
        simp [List.append_assoc]]
    exact isPrefixOf_self_append _ _
  have hdrop : ("cmux-".data ++ m ++ "-".data ++ s ++ "-".data ++ P).drop 5 =
      m ++ "-".data ++ s ++ "-".data ++ P := by
    rw [show "cmux-".data ++ m ++ "-".data ++ s ++ "-".data ++ P =
      "cmux-".data ++ (m ++ "-".data ++ s ++ "-".data ++ P) from by
        simp [List.append_assoc]]
    rw [show (5 : Nat) = ("cmux-".data : Str).length from rfl]
    exact List.drop_left _ _
  have hTjoin : m ++ "-".data ++ s ++ "-".data ++ P =
      joinSep '-' (splitSep '-' m ++ [s, P]) := by
    rw [joinSep_append_two '-' s P (splitSep '-' m) hMne, hm_join]
    simp [List.append_assoc]
  have hparts_ok : ∀ p ∈ splitSep '-' m ++ [s, P], ∀ c ∈ p, c ≠ '-' := by
    intro p hp c hc
    rcases List.mem_append.mp hp with hpm | hps
    · exact (lowerAlnum_facts c ((hm p hpm).2 c hc)).2.1
    · rcases List.mem_cons.mp hps with rfl | hps2
      · exact (lowerAlnum_facts c (hs2 c hc)).2.1
      · rcases List.mem_cons.mp hps2 with rfl | hp0
        · exact (lowerAlnum_facts c (digit_isLowerAlnum c (hP2 c hc))).2.1
        · simp at hp0
  have hsplitT : splitSep '-' (m ++ "-".data ++ s ++ "-".data ++ P) =
      splitSep '-' m ++ [s, P] := by
    rw [hTjoin]
    exact splitSep_joinSep_parts '-' _ (by simp) hparts_ok
  have hfilter : (splitSep '-' m ++ [s, P]).filter (fun x => ¬ x.isEmpty) =
      splitSep '-' m ++ [s, P] := by
    apply List.filter_eq_self.mpr
    intro x hx
    rcases List.mem_append.mp hx with hxm | hxs
    · simp [List.isEmpty_iff, (hm x hxm).1]
    · rcases List.mem_cons.mp hxs with rfl | hxs2
      · simp [List.isEmpty_iff, hs1]
      · rcases List.mem_cons.mp hxs2 with rfl | hx0
        · simp [List.isEmpty_iff, hP1]
        · simp at hx0
  have hMlen : 1 ≤ (splitSep '-' m).length := List.length_pos.mpr hMne
  have hseglen : (splitSep '-' m ++ [s, P]).length = (splitSep '-' m).length + 2 := by
    simp
  have hnotlt : ¬ (splitSep '-' m ++ [s, P]).length < 3 := by omega
  have hlast : (splitSep '-' m ++ [s, P]).getLastD [] = P :=
    getLastD_append_two s P _ []
  have hPall : P.all (fun c => isAsciiDigit c) = true := by
    rw [List.all_eq_true]; intro x hx; simpa using hP2 x hx
  have hidx : (splitSep '-' m ++ [s, P]).length - 2 = (splitSep '-' m).length := by
    omega
  have hscope : (splitSep '-' m ++ [s, P]).getD
      ((splitSep '-' m ++ [s, P]).length - 2) [] = s := by
    rw [hidx]
    exact getD_append_len s [P] _ []
  have htake : (splitSep '-' m ++ [s, P]).take
      ((splitSep '-' m ++ [s, P]).length - 2) = splitSep '-' m := by
    rw [hidx]
    exact List.take_left _ _
  have hmorphne : m.isEmpty = false := by
    cases m with
    | nil => exact absurd rfl hmne
    | cons c t => rfl
  simp only [deriveRouteCmuxStep]
  rw [if_pos hends, hsub, if_pos hpre, hdrop, hsplitT, hfilter,
    if_neg hnotlt, hlast, if_neg (not_not_intro hPall), hscope, htake,
    hm_join, if_neg (by simp [hmorphne])]

theorem digit_exists_ofNat (c : Char) (h : isAsciiDigit c = true) :
    ∃ k, k < 10 ∧ c = Char.ofNat (48 + k) := by
  simp only [isAsciiDigit, decide_eq_true_eq] at h
  obtain ⟨h1, h2⟩ := h
  rw [Char.le_def] at h1 h2
  have h1' : 48 ≤ c.toNat := h1
  have h2' : c.toNat ≤ 57 := h2
  refine ⟨c.toNat - 48, by omega, ?_⟩
  rw [show 48 + (c.toNat - 48) = c.toNat from by omega, Char.ofNat_toNat]

theorem endsWith_domain_false (d' d pre : Str) (pLast : Char)
    (hdig : isAsciiDigit pLast = true)
    (hlen : (".".data ++ d').length ≤ d.length + 2)
    (hfalse : ∀ k, k < 10 →
      endsWith (".".data ++ d') (Char.ofNat (48 + k) :: '.' :: d) = false) :
    endsWith (".".data ++ d') (pre ++ (pLast :: '.' :: d)) = false := by
  have hT : endsWith (pLast :: '.' :: d) (pre ++ (pLast :: '.' :: d)) = true :=
    endsWith_append _ _
  rw [endsWith_eq_of_endsWith _ _ _ hT (by simpa using hlen)]
  obtain ⟨k, hk, rfl⟩ := digit_exists_ofNat pLast hdig
  exact hfalse k hk

theorem deriveRouteCmuxStep_none_of_not_suffix (hostname dom : Str)
    (h : endsWith (".".data ++ dom) hostname = false) :
    deriveRouteCmuxStep hostname dom = none := by
  simp only [deriveRouteCmuxStep]
  rw [if_neg (show ¬endsWith (".".data ++ dom) hostname = true by simpa using h)]

theorem deriveRouteMorph_cmux_none (rest : Str) :
    deriveRouteMorph ("cmux-".data ++ rest) = none := by
  have h : startsWith "port-".data ("cmux-".data ++ rest) = false := by
    simp [startsWith, List.isPrefixOf]
  simp only [deriveRouteMorph]
  rw [if_neg
    (show ¬startsWith "port-".data ("cmux-".data ++ rest) = true by
      simpa using h)]

theorem derive_route_build (m s P d : Str)
    (hm : ∀ part ∈ splitSep '-' m,
      part ≠ [] ∧ ∀ c ∈ part, isLowerAlnum c = true)
    (hs1 : s ≠ []) (hs2 : ∀ c ∈ s, isLowerAlnum c = true)
    (hP1 : P ≠ []) (hP2 : ∀ c ∈ P, isAsciiDigit c = true)
    (hd : d ∈ CMUX_DOMAINS) :
    derive_route ("https://".data ++ ("cmux-".data ++ m ++ "-".data ++ s
      ++ "-".data ++ P ++ ".".data ++ d)) = some ⟨m, s, d⟩ := by
  have hmchars : ∀ c ∈ m, isLowerAlnum c = true ∨ c = '-' := by
    intro c hc
    have hcj : c ∈ joinSep '-' (splitSep '-' m) := by
      rw [joinSep_splitSep]; exact hc
    rcases mem_joinSep '-' _ c hcj with ⟨p, hp, hcp⟩ | rfl
    · exact Or.inl ((hm p hp).2 c hcp)
    · exact Or.inr rfl
  have hdok : ∀ c ∈ d, hostCharOk c := by
    simp only [CMUX_DOMAINS, List.mem_cons, List.not_mem_nil, or_false] at hd
    rcases hd with rfl | rfl | rfl | rfl | rfl | rfl <;> decide
  have hHok : ∀ c ∈ ("cmux-".data ++ m ++ "-".data ++ s ++ "-".data ++ P
      ++ ".".data ++ d : Str), hostCharOk c := by
    intro c hc
    simp only [List.mem_append] at hc
    rcases hc with ((((((hc | hc) | hc) | hc) | hc) | hc) | hc) | hc
    · exact (show ∀ c ∈ ("cmux-".data : Str), hostCharOk c by decide) c hc
    · rcases hmchars c hc with h | rfl
      · exact lowerAlnum_hostCharOk c h
      · exact hyphen_hostCharOk
    · exact (show ∀ c ∈ ("-".data : Str), hostCharOk c by decide) c hc
    · exact lowerAlnum_hostCharOk c (hs2 c hc)
    · exact (show ∀ c ∈ ("-".data : Str), hostCharOk c by decide) c hc
    · exact digit_hostCharOk c (hP2 c hc)
    · exact (show ∀ c ∈ (".".data : Str), hostCharOk c by decide) c hc
    · exact hdok c hc
  have hHne : ("cmux-".data ++ m ++ "-".data ++ s ++ "-".data ++ P
      ++ ".".data ++ d : Str) ≠ [] := by
    simp
  have hlower : lowerStr ("cmux-".data ++ m ++ "-".data ++ s ++ "-".data ++ P
      ++ ".".data ++ d) = "cmux-".data ++ m ++ "-".data ++ s ++ "-".data ++ P
      ++ ".".data ++ d :=
    lowerStr_eq_self _ (fun c hc => (hHok c hc).1)
  have hurl := urlHostStr_https _ hHne hHok
  rw [derive_route.eq_def, hurl, hlower]
  have hmorph : deriveRouteMorph ("cmux-".data ++ m ++ "-".data ++ s
      ++ "-".data ++ P ++ ".".data ++ d) = none := by
    rw [show "cmux-".data ++ m ++ "-".data ++ s ++ "-".data ++ P
        ++ ".".data ++ d =
      "cmux-".data ++ (m ++ "-".data ++ s ++ "-".data ++ P ++ ".".data ++ d)
      from by simp [List.append_assoc]]
    exact deriveRouteMorph_cmux_none _
  simp only [hlower, hmorph]
  rcases List.eq_nil_or_concat P with rfl | ⟨Pinit, pLast, hPc⟩
  · exact absurd rfl hP1
  rw [List.concat_eq_append] at hPc
  subst hPc
  have hdigLast : isAsciiDigit pLast = true := hP2 pLast (by simp)
  have hHshape : "cmux-".data ++ m ++ "-".data ++ s ++ "-".data
      ++ (Pinit ++ [pLast]) ++ ".".data ++ d =
      ("cmux-".data ++ m ++ "-".data ++ s ++ "-".data ++ Pinit)
        ++ (pLast :: '.' :: d) := by
    simp [List.append_assoc]
  have hstep : deriveRouteCmuxStep ("cmux-".data ++ m ++ "-".data ++ s
      ++ "-".data ++ (Pinit ++ [pLast]) ++ ".".data ++ d) d =
      some ⟨m, s, d⟩ :=
    deriveRouteCmuxStep_build m s (Pinit ++ [pLast]) d _ rfl hm hs1 hs2
      (by simp) hP2
  have hskip : ∀ d' : Str, (".".data ++ d').length ≤ d.length + 2 →
      (∀ k, k < 10 → endsWith (".".data ++ d')
        (Char.ofNat (48 + k) :: '.' :: d) = false) →
      deriveRouteCmuxStep ("cmux-".data ++ m ++ "-".data ++ s ++ "-".data
        ++ (Pinit ++ [pLast]) ++ ".".data ++ d) d' = none := by
    intro d' hlen hfalse
    apply deriveRouteCmuxStep_none_of_not_suffix
    rw [hHshape]
    exact endsWith_domain_false d' d _ pLast hdigLast hlen hfalse
  simp only [CMUX_DOMAINS, List.mem_cons, List.not_mem_nil, or_false] at hd
  rcases hd with rfl | rfl | rfl | rfl | rfl | rfl
  · rw [CMUX_DOMAINS.eq_def]
    simp only [deriveRouteCmuxLoop, hstep]
  · rw [CMUX_DOMAINS.eq_def]
    simp only [deriveRouteCmuxLoop, hstep,
      hskip "cmux.app".data (by decide) (by decide)]
  · rw [CMUX_DOMAINS.eq_def]
    simp only [deriveRouteCmuxLoop, hstep,
      hskip "cmux.app".data (by decide) (by decide),
      hskip "cmux.sh".data (by decide) (by decide)]
  · rw [CMUX_DOMAINS.eq_def]
    simp only [deriveRouteCmuxLoop, hstep,
      hskip "cmux.app".data (by decide) (by decide),
      hskip "cmux.sh".data (by decide) (by decide),
      hskip "cmux.dev".data (by decide) (by decide)]
  · rw [CMUX_DOMAINS.eq_def]
    simp only [deriveRouteCmuxLoop, hstep,
      hskip "cmux.app".data (by decide) (by decide),
      hskip "cmux.sh".data (by decide) (by decide),
      hskip "cmux.dev".data (by decide) (by decide),
      hskip "cmux.local".data (by decide) (by decide)]
  · rw [CMUX_DOMAINS.eq_def]
    simp only [deriveRouteCmuxLoop, hstep,
      hskip "cmux.app".data (by decide) (by decide),
      hskip "cmux.sh".data (by decide) (by decide),
      hskip "cmux.dev".data (by decide) (by decide),
      hskip "cmux.local".data (by decide) (by decide),
      hskip "cmux.localhost".data (by decide) (by decide)]

/-! ## Claims C7 and C8: route derivation round trip -/

/-- C7 counterexample: the round trip fails for general non-empty `m`
and `s`.  A scope containing a hyphen is re-bracketed (the last two
hyphen segments win), and an uppercase morph id comes back lowercased
(URL hosts are lowercase-normalized). -/
theorem C7_counterexample :
    derive_route ("https://".data ++ build_cmux_host
      ⟨"m1".data, "my-scope".data, "cmux.app".data⟩ 80) =
      some ⟨"m1-my".data, "scope".data, "cmux.app".data⟩ ∧
    (some ⟨"m1-my".data, "scope".data, "cmux.app".data⟩ :
        Option ProxyRoute) ≠
      some ⟨"m1".data, "my-scope".data, "cmux.app".data⟩ ∧
    derive_route ("https://".data ++ build_cmux_host
      ⟨"ABC".data, "base".data, "cmux.app".data⟩ 80) =
      some ⟨"abc".data, "base".data, "cmux.app".data⟩ ∧
    (some ⟨"abc".data, "base".data, "cmux.app".data⟩ :
        Option ProxyRoute) ≠
      some ⟨"ABC".data, "base".data, "cmux.app".data⟩ := by
  refine ⟨by decide, by decide, by decide, by decide⟩

/-- C7 (amended): for a route `(m,s,d)` whose morph id `m` has only
non-empty, lowercase-alphanumeric `-`-separated segments, whose scope
`s` is non-empty lowercase-alphanumeric (in particular hyphen-free), and
whose suffix `d` is in the recognized set, and any port `p ≤ 65535`,
`derive_route` applied to `https://` followed by the hostname built by
`build_cmux_host` returns exactly `(m,s,d)`.  The counterexample shows
the restriction on `s` and on letter case is necessary. -/
theorem C7_round_trip (m s d : Str) (p : Nat)
    (hm : ∀ part ∈ splitSep '-' m,
      part ≠ [] ∧ ∀ c ∈ part, isLowerAlnum c = true)
    (hs1 : s ≠ []) (hs2 : ∀ c ∈ s, isLowerAlnum c = true)
    (hd : d ∈ CMUX_DOMAINS) (hp : p ≤ 65535) :
    derive_route ("https://".data ++ build_cmux_host ⟨m, s, d⟩ p) =
      some ⟨m, s, d⟩ := by
  have hPd : ∀ c ∈ natRepr p, isAsciiDigit c = true := by
    have h := natRepr_digits p
    rw [List.all_eq_true] at h
    intro c hc
    simpa using h c hc
  have h := derive_route_build m s (natRepr p) d hm hs1 hs2
    (natRepr_ne_nil p) hPd hd
  have hb : build_cmux_host ⟨m, s, d⟩ p =
      "cmux-".data ++ m ++ "-".data ++ s ++ "-".data ++ natRepr p
        ++ ".".data ++ d := rfl
  rw [hb]
  simpa [List.append_assoc] using h

/-- Witness for C7 mirroring the repository's own round-trip test. -/
theorem C7_round_trip_witness :
    (∀ part ∈ splitSep '-' "abc123".data,
      part ≠ [] ∧ ∀ c ∈ part, isLowerAlnum c = true) ∧
    ("base".data : Str) ≠ [] ∧
    (∀ c ∈ ("base".data : Str), isLowerAlnum c = true) ∧
    "cmux.sh".data ∈ CMUX_DOMAINS ∧ 8080 ≤ 65535 ∧
    derive_route ("https://".data ++ build_cmux_host
      ⟨"abc123".data, "base".data, "cmux.sh".data⟩ 8080) =
      some ⟨"abc123".data, "base".data, "cmux.sh".data⟩ :=
  ⟨by decide, by decide, by decide, by decide, by decide,
   C7_round_trip "abc123".data "base".data "cmux.sh".data 8080
     (by decide) (by decide) (by decide) (by decide) (by decide)⟩

/-- C8 counterexample: the final segment is only checked to consist of
ASCII digits — `99999` exceeds 16 bits, yet the cmux pattern still
yields a route. -/
theorem C8_counterexample :
    derive_route "https://cmux-m1-base-99999.cmux.app".data =
      some ⟨"m1".data, "base".data, "cmux.app".data⟩ ∧ 65535 < 99999 := by
  exact ⟨by decide, by decide⟩

/-- C8 (amended): the cmux pattern yields a route only when the final
`-`-separated segment consists of ASCII digits, but the numeric value is
not range-checked: any non-empty all-digit final segment — including
digit strings whose value exceeds 65535 — yields a route. -/
theorem C8_port_segment :
    (∀ hostname d r, deriveRouteCmuxStep hostname d = some r →
      (((splitSep '-' ((hostname.take (hostname.length
          - (".".data ++ d).length)).drop 5)).filter
        (fun s => ¬ s.isEmpty)).getLastD []).all
          (fun c => isAsciiDigit c) = true) ∧
    (∀ m s P d,
      (∀ part ∈ splitSep '-' m,
        part ≠ [] ∧ ∀ c ∈ part, isLowerAlnum c = true) →
      s ≠ [] → (∀ c ∈ s, isLowerAlnum c = true) →
      P ≠ [] → (∀ c ∈ P, isAsciiDigit c = true) →
      d ∈ CMUX_DOMAINS →
      derive_route ("https://".data ++ ("cmux-".data ++ m ++ "-".data ++ s
        ++ "-".data ++ P ++ ".".data ++ d)) = some ⟨m, s, d⟩) := by
  constructor
  · intro hostname d r h
    simp only [deriveRouteCmuxStep] at h
    split at h
    · split at h
      · split at h
        · exact Option.noConfusion h
        · split at h
          · exact Option.noConfusion h
          · rename_i hdig
            exact not_not.mp hdig
      · exact Option.noConfusion h
    · exact Option.noConfusion h
  · intro m s P d hm hs1 hs2 hP1 hP2 hd
    exact derive_route_build m s P d hm hs1 hs2 hP1 hP2 hd

/-- Witness for C8: the digit string `99999`, whose value exceeds 65535,
still yields a route. -/
theorem C8_port_segment_witness :
    ((∀ part ∈ splitSep '-' "m1".data,
      part ≠ [] ∧ ∀ c ∈ part, isLowerAlnum c = true) ∧
    ("base".data : Str) ≠ [] ∧
    (∀ c ∈ ("base".data : Str), isLowerAlnum c = true) ∧
    ("99999".data : Str) ≠ [] ∧
    (∀ c ∈ ("99999".data : Str), isAsciiDigit c = true) ∧
    "cmux.app".data ∈ CMUX_DOMAINS) ∧
    derive_route ("https://".data ++ ("cmux-".data ++ "m1".data ++ "-".data
      ++ "base".data ++ "-".data ++ "99999".data ++ ".".data
      ++ "cmux.app".data)) =
      some ⟨"m1".data, "base".data, "cmux.app".data⟩ :=
  ⟨⟨by decide, by decide, by decide, by decide, by decide, by decide⟩,
   C8_port_segment.2 "m1".data "base".data "99999".data "cmux.app".data
     (by decide) (by decide) (by decide) (by decide) (by decide)
     (by decide)⟩
